import Mathlib

/-!
Shallow embedding of `src/scripts/spark_etl.py` (a PySpark ETL pipeline).

A dataframe is modelled as a schema (ordered list of column names) together
with a list of rows, each row a list of dynamically typed values aligned with
the schema.  The Spark operations used by the script (`join`, `withColumn`,
`withColumnRenamed`, `select`, `drop`, `groupBy(...).agg(...)`, `concat`,
`to_timestamp`, `to_date`, `sum`, `count`, `max`) are embedded as executable
functions on this representation, with SQL null semantics where the script
depends on them (null-rejecting join equality, null-skipping aggregates,
null-on-parse-failure timestamp parsing).
-/

namespace SparkETL

/-- A parsed timestamp (the script's patterns carry no seconds). -/
structure DateTime where
  year : Nat
  month : Nat
  day : Nat
  hour : Nat
  minute : Nat
deriving DecidableEq, Repr

/-- A calendar date, as produced by Spark's `to_date`. -/
structure Date where
  year : Nat
  month : Nat
  day : Nat
deriving DecidableEq, Repr

/-- A dynamically typed SQL cell value. -/
inductive Value where
  | null
  | str (s : String)
  | int (n : Int)
  | timestamp (t : DateTime)
  | date (d : Date)
deriving DecidableEq, Repr

def Value.isNull : Value → Bool
  | .null => true
  | _ => false

/-- SQL equality used in join conditions: null compares false with everything. -/
def eqv (a b : Value) : Bool :=
  !a.isNull && !b.isNull && a == b

/-- String rendering used by `concat`'s implicit cast. -/
def showValue : Value → String
  | .null => ""
  | .str s => s
  | .int n => toString n
  | .timestamp t =>
      toString t.year ++ "-" ++ toString t.month ++ "-" ++ toString t.day ++ " " ++
        toString t.hour ++ ":" ++ toString t.minute
  | .date d => toString d.year ++ "-" ++ toString d.month ++ "-" ++ toString d.day

/-- Spark's `concat`: null if any argument is null, else string concatenation. -/
def concatVals (vs : List Value) : Value :=
  if vs.any Value.isNull then .null else .str (String.join (vs.map showValue))

def isLeap (y : Nat) : Bool :=
  (y % 4 == 0 && y % 100 != 0) || y % 400 == 0

def daysInMonth (y m : Nat) : Nat :=
  if m = 2 then (if isLeap y then 29 else 28)
  else if m = 4 ∨ m = 6 ∨ m = 9 ∨ m = 11 then 30
  else 31

def validYMD (y m d : Nat) : Bool :=
  1 ≤ m && m ≤ 12 && 1 ≤ d && d ≤ daysInMonth y m

def digitVal? (c : Char) : Option Nat :=
  if c.isDigit then some (c.toNat - 48) else none

def twoDigits? (a b : Char) : Option Nat := do
  pure ((← digitVal? a) * 10 + (← digitVal? b))

def fourDigits? (a b c d : Char) : Option Nat := do
  pure (((← digitVal? a) * 10 + (← digitVal? b)) * 100 +
        ((← digitVal? c) * 10 + (← digitVal? d)))

/-- Strict parse of the script's trip-date pattern `dd/MM/yyyy HH:mm`. -/
def parse_ddMMyyyyHHmm (s : String) : Option DateTime :=
  match s.toList with
  | [d1, d2, s1, m1, m2, s2, y1, y2, y3, y4, sp, h1, h2, c1, n1, n2] =>
    if s1 = '/' && s2 = '/' && sp = ' ' && c1 = ':' then do
      let d ← twoDigits? d1 d2
      let m ← twoDigits? m1 m2
      let y ← fourDigits? y1 y2 y3 y4
      let h ← twoDigits? h1 h2
      let n ← twoDigits? n1 n2
      if validYMD y m d && h ≤ 23 && n ≤ 59 then
        some ⟨y, m, d, h, n⟩
      else
        none
    else none
  | _ => none

/-- Strict parse of the weather-date pattern `yyyy-MM-dd` (midnight timestamp). -/
def parse_yyyyMMdd (s : String) : Option DateTime :=
  match s.toList with
  | [y1, y2, y3, y4, s1, m1, m2, s2, d1, d2] =>
    if s1 = '-' && s2 = '-' then do
      let y ← fourDigits? y1 y2 y3 y4
      let m ← twoDigits? m1 m2
      let d ← twoDigits? d1 d2
      if validYMD y m d then some ⟨y, m, d, 0, 0⟩ else none
    else none
  | _ => none

/-- Spark's `to_timestamp(col, pattern)`: unparseable values become null. -/
def to_timestamp (v : Value) (pattern : String) : Value :=
  match v with
  | .str s =>
    let p :=
      if pattern = "dd/MM/yyyy HH:mm" then parse_ddMMyyyyHHmm s
      else if pattern = "yyyy-MM-dd" then parse_yyyyMMdd s
      else none
    match p with
    | some t => .timestamp t
    | none => .null
  | _ => .null

/-- Spark's `to_date(col)`: truncates a timestamp to its calendar date. -/
def to_date (v : Value) : Value :=
  match v with
  | .timestamp t => .date ⟨t.year, t.month, t.day⟩
  | .date d => .date d
  | .str s =>
    match parse_yyyyMMdd s with
    | some t => .date ⟨t.year, t.month, t.day⟩
    | none => .null
  | _ => .null

/-- A dataframe: an ordered schema and rows aligned with it. -/
structure Frame where
  cols : List String
  rows : List (List Value)
deriving DecidableEq, Repr

/-- Every row has exactly one cell per schema column. -/
def Frame.WF (f : Frame) : Prop :=
  ∀ r ∈ f.rows, r.length = f.cols.length

instance (f : Frame) : Decidable f.WF := by
  unfold Frame.WF; infer_instance

/-- Resolve a column by name in a row (first matching schema position). -/
def Frame.get (f : Frame) (r : List Value) (c : String) : Value :=
  match f.cols.findIdx? (fun n => n == c) with
  | some i => r.getD i .null
  | none => .null

/-- The column-resolution environment a Spark expression sees on one row. -/
def Frame.env (f : Frame) (r : List Value) : String → Value :=
  fun c => f.get r c

/-- Spark's `df.withColumn(nm, e)`: replace the column in place if present, else append. -/
def Frame.withColumn (f : Frame) (nm : String) (e : (String → Value) → Value) : Frame :=
  match f.cols.findIdx? (fun c => c == nm) with
  | some i => ⟨f.cols, f.rows.map (fun r => r.set i (e (f.env r)))⟩
  | none => ⟨f.cols ++ [nm], f.rows.map (fun r => r ++ [e (f.env r)])⟩

/-- One column-name rewrite, as performed by `withColumnRenamed`. -/
def rn (o n c : String) : String :=
  if c = o then n else c

/-- Spark's `df.withColumnRenamed(o, n)`: rename; no-op when `o` is absent. -/
def Frame.withColumnRenamed (f : Frame) (o n : String) : Frame :=
  ⟨f.cols.map (rn o n), f.rows⟩

/-- Spark's `df.join(g, [df[lk] == g[rk]])`: inner join on SQL equality of the keys. -/
def Frame.joinOn (f g : Frame) (lk rk : String) : Frame :=
  ⟨f.cols ++ g.cols,
   (f.rows.map (fun rf =>
      (g.rows.filter (fun rg => eqv (f.get rf lk) (g.get rg rk))).map
        (fun rg => rf ++ rg))).flatten⟩

/-- Spark's `df.select(names)`: fails (AnalysisException) when a name is unresolvable. -/
def Frame.select (f : Frame) (names : List String) : Except String Frame :=
  match names.mapM (fun nm => f.cols.findIdx? (fun c => c == nm)) with
  | some idxs => .ok ⟨names, f.rows.map (fun r => idxs.map (fun i => r.getD i .null))⟩
  | none => .error "AnalysisException: cannot resolve column"

/-- One row under `drop`: keep the cells whose column survives. -/
def dropRow (names cols : List String) (r : List Value) : List Value :=
  ((cols.zip r).filter (fun p => !(names.contains p.1))).map Prod.snd

/-- Spark's `df.drop(*names)`: remove the named columns; missing names are ignored. -/
def Frame.drop (f : Frame) (names : List String) : Frame :=
  ⟨f.cols.filter (fun c => !(names.contains c)), f.rows.map (dropRow names f.cols)⟩

/-- The aggregate expressions used by the script's `agg(...)`. -/
inductive AggExpr where
  | max (c : String)
  | sum (c : String)
  | count (c : String)

/-- Lexicographic comparison of character lists by code point. -/
def charListLt : List Char → List Char → Bool
  | [], [] => false
  | [], _ :: _ => true
  | _ :: _, [] => false
  | a :: as, b :: bs =>
    if a.toNat < b.toNat then true
    else if a.toNat = b.toNat then charListLt as bs
    else false

/-- Spark's ordering on comparable cell values (only like types compare). -/
def vless (a b : Value) : Bool :=
  match a, b with
  | .str x, .str y => charListLt x.toList y.toList
  | .int x, .int y => decide (x < y)
  | .date x, .date y =>
      decide (x.year < y.year ∨ (x.year = y.year ∧ (x.month < y.month ∨
        (x.month = y.month ∧ x.day < y.day))))
  | .timestamp x, .timestamp y =>
      decide (x.year < y.year ∨ (x.year = y.year ∧ (x.month < y.month ∨
        (x.month = y.month ∧ (x.day < y.day ∨ (x.day = y.day ∧ (x.hour < y.hour ∨
          (x.hour = y.hour ∧ x.minute < y.minute))))))))
  | _, _ => false

/-- Spark's `max` aggregate: greatest non-null value, null when all are null. -/
def maxAgg (vs : List Value) : Value :=
  vs.foldl (fun acc v =>
    if v.isNull then acc
    else if acc.isNull then v
    else if vless acc v then v else acc) .null

def toIntOpt : Value → Option Int
  | .int n => some n
  | _ => none

/-- Spark's `sum` aggregate: skips nulls, null when no numeric value remains. -/
def sumAgg (vs : List Value) : Value :=
  match vs.filterMap toIntOpt with
  | [] => .null
  | l => .int l.sum

/-- Spark's `count(col)` aggregate: number of non-null values. -/
def countAgg (vs : List Value) : Value :=
  .int ((vs.filter (fun v => !v.isNull)).length : Nat)

def evalAgg (f : Frame) (grp : List (List Value)) : AggExpr → Value
  | .max c => maxAgg (grp.map (fun r => f.get r c))
  | .sum c => sumAgg (grp.map (fun r => f.get r c))
  | .count c => countAgg (grp.map (fun r => f.get r c))

/-- Order-preserving first-occurrence deduplication (grouping keys). -/
def dedup {α : Type} [DecidableEq α] : List α → List α
  | [] => []
  | a :: l => a :: (dedup l).filter (fun b => !(b == a))

/-- Spark's `df.groupBy(keys).agg(aggs)`: group keys use structural equality
(Spark groups null keys together), one output row per distinct key. -/
def Frame.groupByAgg (f : Frame) (keys : List String) (aggs : List (String × AggExpr)) : Frame :=
  ⟨keys ++ aggs.map Prod.fst,
   (dedup (f.rows.map (fun r => keys.map (f.get r)))).map (fun k =>
     let grp := f.rows.filter (fun r => keys.map (f.get r) == k)
     k ++ aggs.map (fun a => evalAgg f grp a.2))⟩

/-! ### The script's functions (`src/scripts/spark_etl.py`) -/

/-- The script's `get_station_location(df, df_station, start_or_end)`.  A role other than
`"start"`/`"end"` leaves `left_key` unassigned and the call raises
(`UnboundLocalError`), modelled as the error case. -/
def get_station_location (df df_station : Frame) (start_or_end : String) :
    Except String Frame :=
  match (if start_or_end = "start" then some ("StartStation Id", "start_location")
         else if start_or_end = "end" then some ("EndStation Id", "end_location")
         else none : Option (String × String)) with
  | none => .error "UnboundLocalError: local variable referenced before assignment"
  | some (left_key, column_location_name) =>
    let df1 := df.joinOn df_station left_key "id"
    let df2 := df1.withColumn column_location_name
      (fun env => concatVals [env "latitude", Value.str ", ", env "longitude"])
    .ok (df2.drop ["id", "latitude", "longitude"])

/-- The script's `format_datetime(df, column_name)`. -/
def format_datetime (df : Frame) (column_name : String) : Frame :=
  df.withColumn column_name (fun env => to_timestamp (env column_name) "dd/MM/yyyy HH:mm")

/-- The canonical output column list of `df_preparation_to_bq`. -/
def canonCols : List String :=
  ["rental_id", "duration", "bike_id", "start_date", "start_station_id",
   "start_station_name", "start_location", "end_date", "end_station_id",
   "end_station_name", "end_location"]

/-- The rename chain at the head of `df_preparation_to_bq`, in source order. -/
def renameStage (df : Frame) : Frame :=
  ((((((((df.withColumnRenamed "Rental Id" "rental_id").withColumnRenamed
    "Duration" "duration").withColumnRenamed
    "Bike Id" "bike_id").withColumnRenamed
    "End Date" "end_date").withColumnRenamed
    "EndStation Id" "end_station_id").withColumnRenamed
    "EndStation Name" "end_station_name").withColumnRenamed
    "Start Date" "start_date").withColumnRenamed
    "StartStation Id" "start_station_id").withColumnRenamed
    "StartStation Name" "start_station_name"

/-- The script's `df_preparation_to_bq(df)`: rename then project to the canonical schema. -/
def df_preparation_to_bq (df : Frame) : Except String Frame :=
  (renameStage df).select canonCols

/-- The effect of the whole rename chain on a single column name. -/
def renameFn (c : String) : String :=
  rn "StartStation Name" "start_station_name"
    (rn "StartStation Id" "start_station_id"
      (rn "Start Date" "start_date"
        (rn "EndStation Name" "end_station_name"
          (rn "EndStation Id" "end_station_id"
            (rn "End Date" "end_date"
              (rn "Bike Id" "bike_id"
                (rn "Duration" "duration"
                  (rn "Rental Id" "rental_id" c))))))))

/-- The fixed rename table of `df_preparation_to_bq`, as (source, canonical)
pairs; the two location columns are already canonical and pass through. -/
def renamePairs : List (String × String) :=
  [("Rental Id", "rental_id"), ("Duration", "duration"), ("Bike Id", "bike_id"),
   ("End Date", "end_date"), ("EndStation Id", "end_station_id"),
   ("EndStation Name", "end_station_name"), ("Start Date", "start_date"),
   ("StartStation Id", "start_station_id"), ("StartStation Name", "start_station_name"),
   ("start_location", "start_location"), ("end_location", "end_location")]

/-- The script's `get_daily_agg(df)`. -/
def get_daily_agg (df : Frame) : Frame :=
  let df1 := df.withColumn "start_date" (fun env => to_date (env "start_date"))
  let df2 := df1.withColumn "end_date" (fun env => to_date (env "end_date"))
  df2.groupByAgg ["start_date", "start_station_id"]
    [("start_station_name", AggExpr.max "start_station_name"),
     ("start_location", AggExpr.max "start_location"),
     ("total_duration", AggExpr.sum "duration"),
     ("hire_count", AggExpr.count "rental_id")]

/-- The script's `get_datetime_weather(df)`. -/
def get_datetime_weather (df : Frame) : Frame :=
  let df1 := df.withColumn "date" (fun env => to_timestamp (env "date") "yyyy-MM-dd")
  df1.withColumn "date" (fun env => to_date (env "date"))

/-- The script's `get_weather_data(df, df_weather)`. -/
def get_weather_data (df df_weather : Frame) : Frame :=
  (df.joinOn df_weather "start_date" "date").drop ["date"]

/-- The rename table read as a single flat lookup on one column name. -/
def renameLookup (c : String) : String :=
  if c = "Rental Id" then "rental_id"
  else if c = "Duration" then "duration"
  else if c = "Bike Id" then "bike_id"
  else if c = "End Date" then "end_date"
  else if c = "EndStation Id" then "end_station_id"
  else if c = "EndStation Name" then "end_station_name"
  else if c = "Start Date" then "start_date"
  else if c = "StartStation Id" then "start_station_id"
  else if c = "StartStation Name" then "start_station_name"
  else c

/-- The role-specific join key of `get_station_location`. -/
def keyName (role : String) : String :=
  if role = "start" then "StartStation Id" else "EndStation Id"

/-- The role-specific composite column of `get_station_location`. -/
def locName (role : String) : String :=
  if role = "start" then "start_location" else "end_location"

/-- Value of `intZero` used to read a duration with nulls contributing zero. -/
def intZero : Value → Int
  | .int n => n
  | _ => 0

/-- The truncation `get_daily_agg` applies to one canonical trip row:
`start_date` (index 3) and `end_date` (index 7) are reduced to calendar
dates. -/
def truncTrip (r : List Value) : List Value :=
  (r.set 3 (to_date (r.getD 3 .null))).set 7 (to_date (r.getD 7 .null))

/-- The grouping key of `get_daily_agg` read off an (untruncated) canonical
trip row: start date truncated to a calendar date, and start station id. -/
def tripKey (df : Frame) (r : List Value) : List Value :=
  [to_date (df.get r "start_date"), df.get r "start_station_id"]

/-- The group of trip rows sharing one daily-aggregation key. -/
def tripGroup (df : Frame) (k : List Value) : List (List Value) :=
  df.rows.filter (fun r => tripKey df r == k)

/-! ### Helper lemmas -/

lemma findIdx?_beq_none {l : List String} {c : String} (h : c ∉ l) :
    l.findIdx? (fun n => n == c) = none := by
  rw [List.findIdx?_eq_none_iff]
  intro x hx
  simp only [beq_eq_false_iff_ne, ne_eq]
  rintro rfl
  exact h hx

lemma findIdx?_beq_some_of_mem {l : List String} {c : String} (h : c ∈ l) :
    ∃ i, l.findIdx? (fun n => n == c) = some i ∧ i < l.length := by
  have hs : (l.findIdx? (fun n => n == c)).isSome = true := by
    rw [List.findIdx?_isSome, List.any_eq_true]
    exact ⟨c, h, by simp⟩
  rcases Option.isSome_iff_exists.mp hs with ⟨i, hi⟩
  exact ⟨i, hi, (List.findIdx?_eq_some_iff_findIdx_eq.mp hi).1⟩

/-- A row segment survives a `drop` that touches none of its column names. -/
lemma dropRow_keep_all {A : List String} {ra : List Value} {names : List String}
    (hlen : ra.length = A.length) (hA : ∀ c ∈ A, c ∉ names) :
    dropRow names A ra = ra := by
  unfold dropRow
  have hall : (A.zip ra).filter (fun p => !(names.contains p.1)) = A.zip ra := by
    rw [List.filter_eq_self]
    intro p hp
    rcases List.of_mem_zip hp with ⟨h1, _⟩
    simp only [Bool.not_eq_true']
    rw [← Bool.not_eq_true]
    intro hcon
    exact hA p.1 h1 (List.contains_iff_exists_mem_beq.mp hcon |>.elim
      (fun x hx => by rcases hx with ⟨hx1, hx2⟩; rcases eq_of_beq hx2; exact hx1))
  rw [hall]
  exact List.map_snd_zip A ra (le_of_eq hlen)

lemma contains_eq_false_of_not_mem {l : List String} {c : String} (h : c ∉ l) :
    l.contains c = false := by
  rw [← Bool.not_eq_true]
  intro hcon
  exact h (List.contains_iff_exists_mem_beq.mp hcon |>.elim
    (fun x hx => by rcases hx with ⟨hx1, hx2⟩; rcases eq_of_beq hx2; exact hx1))

/-- A `withColumn` on a fresh name appends the column. -/
lemma withColumn_fresh {f : Frame} {nm : String}
    (h : nm ∉ f.cols) (e : (String → Value) → Value) :
    f.withColumn nm e = ⟨f.cols ++ [nm], f.rows.map (fun r => r ++ [e (f.env r)])⟩ := by
  unfold Frame.withColumn
  rw [findIdx?_beq_none h]

/-- A `withColumn` on an existing name keeps the schema. -/
lemma withColumn_cols_of_mem {f : Frame} {nm : String}
    (h : nm ∈ f.cols) (e : (String → Value) → Value) :
    (f.withColumn nm e).cols = f.cols := by
  unfold Frame.withColumn
  rcases findIdx?_beq_some_of_mem h with ⟨i, hi, _⟩
  rw [hi]

/-- Column resolution through a known schema position. -/
lemma get_of_findIdx {f : Frame} {c : String} {i : Nat}
    (h : f.cols.findIdx? (fun n => n == c) = some i) (r : List Value) :
    f.get r c = r.getD i .null := by
  unfold Frame.get
  rw [h]

/-- Same fact stated for the expression environment. -/
lemma env_of_findIdx {f : Frame} {c : String} {i : Nat}
    (h : f.cols.findIdx? (fun n => n == c) = some i) (r : List Value) :
    f.env r c = r.getD i .null :=
  get_of_findIdx h r

@[ext] lemma Frame.ext {f g : Frame} (h1 : f.cols = g.cols) (h2 : f.rows = g.rows) :
    f = g := by
  cases f
  cases g
  cases h1
  cases h2
  rfl

/-- SQL equality against a non-null left value is plain equality. -/
lemma eqv_iff {a b : Value} (ha : a ≠ .null) : eqv a b = true ↔ b = a := by
  constructor
  · intro h
    unfold eqv at h
    simp only [Bool.and_eq_true, beq_iff_eq] at h
    exact h.2.symm
  · intro hba
    have hnull : a.isNull = false := by
      cases a
      · exact absurd rfl ha
      all_goals rfl
    have hnullb : b.isNull = false := by
      rw [hba]
      exact hnull
    unfold eqv
    rw [hnull, hnullb, hba]
    simp

lemma dropRow_append {A B : List String} {ra rb : List Value} {names : List String}
    (hlen : ra.length = A.length) :
    dropRow names (A ++ B) (ra ++ rb) = dropRow names A ra ++ dropRow names B rb := by
  unfold dropRow
  rw [List.zip_append hlen.symm, List.filter_append, List.map_append]

lemma filter_not_contains_eq_self {l names : List String} (h : ∀ c ∈ l, c ∉ names) :
    l.filter (fun c => !(names.contains c)) = l := by
  rw [List.filter_eq_self]
  intro c hc
  rw [contains_eq_false_of_not_mem (h c hc)]
  rfl

/-- Resolving a column that lives in the right frame of a join. -/
lemma get_joined_right {df dfs : Frame} {lk rk c : String} {j : Nat}
    (hnone : c ∉ df.cols) (hj : dfs.cols.findIdx? (fun n => n == c) = some j)
    {rf rg : List Value} (hlen : rf.length = df.cols.length) :
    (df.joinOn dfs lk rk).get (rf ++ rg) c = rg.getD j .null := by
  have hcols : (df.joinOn dfs lk rk).cols = df.cols ++ dfs.cols := rfl
  have hfi : (df.joinOn dfs lk rk).cols.findIdx? (fun n => n == c) =
      some (j + df.cols.length) := by
    rw [hcols, List.findIdx?_append, findIdx?_beq_none hnone, hj]
    rfl
  rw [get_of_findIdx hfi]
  have harith : j + df.cols.length - df.cols.length = j := by omega
  rw [List.getD_eq_getElem?_getD, List.getD_eq_getElem?_getD,
    List.getElem?_append_right (by omega), hlen, harith]

lemma renameFn_head (a : String) :
    rn "StartStation Name" "start_station_name"
      (rn "StartStation Id" "start_station_id"
        (rn "Start Date" "start_date"
          (rn "EndStation Name" "end_station_name"
            (rn "EndStation Id" "end_station_id"
              (rn "End Date" "end_date"
                (rn "Bike Id" "bike_id"
                  (rn "Duration" "duration"
                    (rn "Rental Id" "rental_id" a)))))))) = renameFn a := by
  unfold renameFn
  rfl

lemma map_rn_chain : ∀ (l : List String),
    List.map (rn "StartStation Name" "start_station_name")
      (List.map (rn "StartStation Id" "start_station_id")
        (List.map (rn "Start Date" "start_date")
          (List.map (rn "EndStation Name" "end_station_name")
            (List.map (rn "EndStation Id" "end_station_id")
              (List.map (rn "End Date" "end_date")
                (List.map (rn "Bike Id" "bike_id")
                  (List.map (rn "Duration" "duration")
                    (List.map (rn "Rental Id" "rental_id") l)))))))) =
      List.map renameFn l := by
  intro l
  induction l with
  | nil => simp only [List.map_nil]
  | cons a t ih =>
    simp only [List.map_cons]
    rw [ih, renameFn_head]

lemma renameStage_cols (df : Frame) : (renameStage df).cols = df.cols.map renameFn :=
  map_rn_chain df.cols

lemma renameStage_rows (df : Frame) : (renameStage df).rows = df.rows := rfl

/-- The sequential rename chain acts like the flat lookup (no rename target is
a later rename source). -/
lemma renameFn_eq_lookup (c : String) : renameFn c = renameLookup c := by
  by_cases h1 : c = "Rental Id"
  · subst h1; decide
  by_cases h2 : c = "Duration"
  · subst h2; decide
  by_cases h3 : c = "Bike Id"
  · subst h3; decide
  by_cases h4 : c = "End Date"
  · subst h4; decide
  by_cases h5 : c = "EndStation Id"
  · subst h5; decide
  by_cases h6 : c = "EndStation Name"
  · subst h6; decide
  by_cases h7 : c = "Start Date"
  · subst h7; decide
  by_cases h8 : c = "StartStation Id"
  · subst h8; decide
  by_cases h9 : c = "StartStation Name"
  · subst h9; decide
  unfold renameFn renameLookup rn
  simp only [if_neg h1, if_neg h2, if_neg h3, if_neg h4, if_neg h5, if_neg h6,
    if_neg h7, if_neg h8, if_neg h9]

/-- The lookup `renameLookup` either fixes a name or realizes one of the table's pairs. -/
lemma renameLookup_self_or_pair (c : String) :
    renameLookup c = c ∨ (c, renameLookup c) ∈ renamePairs := by
  by_cases h1 : c = "Rental Id"
  · subst h1; right; decide
  by_cases h2 : c = "Duration"
  · subst h2; right; decide
  by_cases h3 : c = "Bike Id"
  · subst h3; right; decide
  by_cases h4 : c = "End Date"
  · subst h4; right; decide
  by_cases h5 : c = "EndStation Id"
  · subst h5; right; decide
  by_cases h6 : c = "EndStation Name"
  · subst h6; right; decide
  by_cases h7 : c = "Start Date"
  · subst h7; right; decide
  by_cases h8 : c = "StartStation Id"
  · subst h8; right; decide
  by_cases h9 : c = "StartStation Name"
  · subst h9; right; decide
  left
  unfold renameLookup
  simp only [if_neg h1, if_neg h2, if_neg h3, if_neg h4, if_neg h5, if_neg h6,
    if_neg h7, if_neg h8, if_neg h9]

lemma renameLookup_eq_target :
    ∀ p ∈ renamePairs, ∀ c, renameLookup c = p.2 ↔ (c = p.1 ∨ c = p.2) := by
  have hinj : ∀ p ∈ renamePairs, ∀ q ∈ renamePairs, q.2 = p.2 → q.1 = p.1 := by decide
  have hfwd : ∀ p ∈ renamePairs, renameLookup p.1 = p.2 := by decide
  have hself : ∀ p ∈ renamePairs, renameLookup p.2 = p.2 := by decide
  intro p hp c
  constructor
  · intro h
    rcases renameLookup_self_or_pair c with hc | hc
    · exact Or.inr (hc.symm.trans h)
    · refine Or.inl (hinj p hp (c, renameLookup c) hc ?_)
      exact h
  · rintro (rfl | rfl)
    · exact hfwd p hp
    · exact hself p hp

/-- Characterization of the rename chain: a canonical target is hit exactly by
its raw source name or by itself. -/
lemma renameFn_eq_target :
    ∀ p ∈ renamePairs, ∀ c, renameFn c = p.2 ↔ (c = p.1 ∨ c = p.2) := by
  intro p hp c
  have hiff := renameLookup_eq_target p hp c
  constructor
  · intro h
    exact hiff.mp ((renameFn_eq_lookup c).symm.trans h)
  · intro h
    exact (renameFn_eq_lookup c).trans (hiff.mpr h)

lemma mapM_findIdx_some {f : Frame} :
    ∀ (names : List String), (∀ nm ∈ names, nm ∈ f.cols) →
      ∃ idxs, names.mapM (fun nm => f.cols.findIdx? (fun c => c == nm)) = some idxs := by
  intro names h
  induction names with
  | nil => exact ⟨[], rfl⟩
  | cons a t ih =>
    rcases findIdx?_beq_some_of_mem (h a (List.mem_cons_self a t)) with ⟨i, hi, _⟩
    rcases ih (fun nm hnm => h nm (List.mem_cons_of_mem _ hnm)) with ⟨l, hl⟩
    refine ⟨i :: l, ?_⟩
    rw [List.mapM_cons, hi, hl]
    rfl

lemma mapM_findIdx_none {f : Frame} {nm : String} :
    ∀ (names : List String), nm ∈ names →
      f.cols.findIdx? (fun c => c == nm) = none →
      names.mapM (fun x => f.cols.findIdx? (fun c => c == x)) = none := by
  intro names hmem hnone
  induction names with
  | nil => cases hmem
  | cons a t ih =>
    rw [List.mapM_cons]
    rcases List.mem_cons.mp hmem with rfl | hmt
    · rw [hnone]; rfl
    · cases ha : f.cols.findIdx? (fun c => c == a)
      · rfl
      · rw [ih hmt]; rfl

lemma select_ok_of_mem {f : Frame} {names : List String}
    (h : ∀ nm ∈ names, nm ∈ f.cols) :
    ∃ out, f.select names = Except.ok out ∧ out.cols = names := by
  rcases mapM_findIdx_some names h with ⟨idxs, hidxs⟩
  refine ⟨⟨names, f.rows.map (fun r => idxs.map (fun i => r.getD i .null))⟩, ?_, rfl⟩
  unfold Frame.select
  rw [hidxs]

lemma select_error_of_not_mem {f : Frame} {names : List String} {nm : String}
    (h1 : nm ∈ names) (h2 : nm ∉ f.cols) :
    f.select names = Except.error "AnalysisException: cannot resolve column" := by
  unfold Frame.select
  rw [mapM_findIdx_none names h1 (findIdx?_beq_none h2)]

/-- The three dropped station columns, as used by `get_station_location`. -/
def stationDropNames : List String := ["id", "latitude", "longitude"]

lemma join_loc_drop_row (df dfs : Frame) (lk loc : String)
    (hwf : df.WF) (hwfs : dfs.WF)
    (hsc : dfs.cols = ["id", "latitude", "longitude"])
    (hid : "id" ∉ df.cols) (hlat : "latitude" ∉ df.cols) (hlon : "longitude" ∉ df.cols)
    (hloc2 : loc ∉ (["id", "latitude", "longitude"] : List String))
    {rf rg : List Value} (hrf : rf ∈ df.rows) (hrg : rg ∈ dfs.rows) :
    dropRow ["id", "latitude", "longitude"] ((df.joinOn dfs lk "id").cols ++ [loc])
      ((rf ++ rg) ++
        [concatVals [(df.joinOn dfs lk "id").env (rf ++ rg) "latitude", Value.str ", ",
          (df.joinOn dfs lk "id").env (rf ++ rg) "longitude"]]) =
      rf ++ [concatVals [rg.getD 1 .null, Value.str ", ", rg.getD 2 .null]] := by
  have hlenf : rf.length = df.cols.length := hwf rf hrf
  have hleng : rg.length = 3 := by
    rw [hwfs rg hrg, hsc]
    rfl
  rcases List.length_eq_three.mp hleng with ⟨a, b, c, rfl⟩
  have hlatv : (df.joinOn dfs lk "id").env (rf ++ [a, b, c]) "latitude" =
      ([a, b, c] : List Value).getD 1 .null :=
    get_joined_right hlat (by rw [hsc]; rfl) hlenf
  have hlonv : (df.joinOn dfs lk "id").env (rf ++ [a, b, c]) "longitude" =
      ([a, b, c] : List Value).getD 2 .null :=
    get_joined_right hlon (by rw [hsc]; rfl) hlenf
  rw [hlatv, hlonv]
  have hcols : (df.joinOn dfs lk "id").cols = df.cols ++ dfs.cols := rfl
  rw [hcols, hsc, List.append_assoc, List.append_assoc]
  rw [dropRow_append hlenf]
  have hkeep : ∀ x ∈ df.cols, x ∉ (["id", "latitude", "longitude"] : List String) := by
    intro x hx hmem
    rcases List.mem_cons.mp hmem with rfl | hmem
    · exact hid hx
    rcases List.mem_cons.mp hmem with rfl | hmem
    · exact hlat hx
    rcases List.mem_cons.mp hmem with rfl | hmem
    · exact hlon hx
    cases hmem
  rw [dropRow_keep_all hlenf hkeep]
  have hmid : dropRow ["id", "latitude", "longitude"]
      (["id", "latitude", "longitude"] ++ [loc])
      ([a, b, c] ++ [concatVals [([a, b, c] : List Value).getD 1 .null, Value.str ", ",
        ([a, b, c] : List Value).getD 2 .null]]) =
      [concatVals [([a, b, c] : List Value).getD 1 .null, Value.str ", ",
        ([a, b, c] : List Value).getD 2 .null]] := by
    rw [dropRow_append (show ([a, b, c] : List Value).length =
      (["id", "latitude", "longitude"] : List String).length from rfl)]
    have h1 : dropRow ["id", "latitude", "longitude"] ["id", "latitude", "longitude"]
        [a, b, c] = [] := rfl
    have h2 : ∀ v : Value, dropRow ["id", "latitude", "longitude"] [loc] [v] = [v] := by
      intro v
      unfold dropRow
      simp only [List.zip_cons_cons, List.zip_nil_right, List.filter_cons, List.filter_nil]
      rw [contains_eq_false_of_not_mem hloc2]
      rfl
    rw [h1, h2]
    rfl
  rw [hmid]

/-- Structure of `get_station_location` for a valid role: an inner join on the
role key against `id`, one appended composite column, and the three station
columns dropped. -/
lemma gsl_structure (df dfs : Frame) (role : String)
    (hrole : role = "start" ∨ role = "end")
    (hwf : df.WF) (hwfs : dfs.WF)
    (hsc : dfs.cols = ["id", "latitude", "longitude"])
    (hid : "id" ∉ df.cols) (hlat : "latitude" ∉ df.cols) (hlon : "longitude" ∉ df.cols)
    (hloc1 : locName role ∉ df.cols) :
    get_station_location df dfs role = Except.ok
      ⟨df.cols ++ [locName role],
       (df.rows.map (fun rf =>
         (dfs.rows.filter (fun rg => eqv (df.get rf (keyName role)) (dfs.get rg "id"))).map
           (fun rg =>
             rf ++ [concatVals [rg.getD 1 .null, Value.str ", ",
               rg.getD 2 .null]]))).flatten⟩ := by
  have hloc2 : locName role ∉ (["id", "latitude", "longitude"] : List String) := by
    rcases hrole with rfl | rfl <;> decide
  have main : ∀ lk loc : String, loc ∉ df.cols →
      loc ∉ (["id", "latitude", "longitude"] : List String) →
      ((df.joinOn dfs lk "id").withColumn loc
          (fun env => concatVals [env "latitude", Value.str ", ", env "longitude"])).drop
        ["id", "latitude", "longitude"] =
      ⟨df.cols ++ [loc],
       (df.rows.map (fun rf =>
         (dfs.rows.filter (fun rg => eqv (df.get rf lk) (dfs.get rg "id"))).map
           (fun rg =>
             rf ++ [concatVals [rg.getD 1 .null, Value.str ", ",
               rg.getD 2 .null]]))).flatten⟩ := by
    intro lk loc hl1 hl2
    have hjcols : (df.joinOn dfs lk "id").cols = df.cols ++ dfs.cols := rfl
    have hlocj : loc ∉ (df.joinOn dfs lk "id").cols := by
      rw [hjcols, hsc, List.mem_append]
      rintro (h | h)
      · exact hl1 h
      · exact hl2 h
    rw [withColumn_fresh hlocj]
    refine Frame.ext ?_ ?_
    · show ((df.joinOn dfs lk "id").cols ++ [loc]).filter
          (fun c => !((["id", "latitude", "longitude"] : List String).contains c)) =
        df.cols ++ [loc]
      rw [hjcols, hsc, List.append_assoc, List.filter_append]
      have hkeep : ∀ x ∈ df.cols, x ∉ (["id", "latitude", "longitude"] : List String) := by
        intro x hx hmem
        rcases List.mem_cons.mp hmem with rfl | hmem
        · exact hid hx
        rcases List.mem_cons.mp hmem with rfl | hmem
        · exact hlat hx
        rcases List.mem_cons.mp hmem with rfl | hmem
        · exact hlon hx
        cases hmem
      rw [filter_not_contains_eq_self hkeep, List.filter_append]
      have h3 : (["id", "latitude", "longitude"] : List String).filter
          (fun c => !((["id", "latitude", "longitude"] : List String).contains c)) = [] := by
        decide
      have h4 : ([loc] : List String).filter
          (fun c => !((["id", "latitude", "longitude"] : List String).contains c)) =
          [loc] := by
        simp only [List.filter_cons, List.filter_nil]
        rw [contains_eq_false_of_not_mem hl2]
        rfl
      rw [h3, h4]
      rfl
    · show ((df.joinOn dfs lk "id").rows.map
          (fun r => r ++ [concatVals [(df.joinOn dfs lk "id").env r "latitude",
            Value.str ", ", (df.joinOn dfs lk "id").env r "longitude"]])).map
          (dropRow ["id", "latitude", "longitude"] ((df.joinOn dfs lk "id").cols ++ [loc])) =
        _
      rw [List.map_map]
      have hjrows : (df.joinOn dfs lk "id").rows =
          (df.rows.map (fun rf =>
            (dfs.rows.filter (fun rg => eqv (df.get rf lk) (dfs.get rg "id"))).map
              (fun rg => rf ++ rg))).flatten := rfl
      rw [hjrows, List.map_flatten, List.map_map]
      show List.flatten (df.rows.map _) = List.flatten (df.rows.map _)
      congr 1
      refine List.map_congr_left ?_
      intro rf hrf
      show List.map _ ((dfs.rows.filter _).map _) = _
      rw [List.map_map]
      refine List.map_congr_left ?_
      intro rg hrg
      have hrg2 : rg ∈ dfs.rows := (List.mem_filter.mp hrg).1
      exact join_loc_drop_row df dfs lk loc hwf hwfs hsc hid hlat hlon hl2 hrf hrg2
  rcases hrole with rfl | rfl
  · have h1 : get_station_location df dfs "start" =
        Except.ok (((df.joinOn dfs "StartStation Id" "id").withColumn "start_location"
          (fun env => concatVals [env "latitude", Value.str ", ", env "longitude"])).drop
            ["id", "latitude", "longitude"]) := rfl
    rw [h1, main "StartStation Id" "start_location" hloc1 hloc2]
    rfl
  · have h1 : get_station_location df dfs "end" =
        Except.ok (((df.joinOn dfs "EndStation Id" "id").withColumn "end_location"
          (fun env => concatVals [env "latitude", Value.str ", ", env "longitude"])).drop
            ["id", "latitude", "longitude"]) := rfl
    rw [h1, main "EndStation Id" "end_location" hloc1 hloc2]
    rfl

/-- Structure of `get_datetime_weather` on the weather schema: the `date`
column is parsed with pattern `yyyy-MM-dd` and truncated to a calendar date;
`prcp` and `tavg` pass through. -/
lemma gdw_structure (dfw : Frame) (hwfw : dfw.WF)
    (hcw : dfw.cols = ["date", "prcp", "tavg"]) :
    get_datetime_weather dfw = ⟨["date", "prcp", "tavg"],
      dfw.rows.map (fun w => [to_date (to_timestamp (w.getD 0 .null) "yyyy-MM-dd"),
        w.getD 1 .null, w.getD 2 .null])⟩ := by
  obtain ⟨cols, rows⟩ := dfw
  have hc : cols = ["date", "prcp", "tavg"] := hcw
  subst hc
  have h1 : get_datetime_weather ⟨["date", "prcp", "tavg"], rows⟩ =
      ⟨["date", "prcp", "tavg"],
        (rows.map (fun r => r.set 0 (to_timestamp (r.getD 0 .null) "yyyy-MM-dd"))).map
          (fun r => r.set 0 (to_date (r.getD 0 .null)))⟩ := rfl
  rw [h1]
  refine Frame.ext rfl ?_
  show _ = rows.map _
  rw [List.map_map]
  refine List.map_congr_left ?_
  intro r hr
  have hlen : r.length = 3 := hwfw r hr
  rcases List.length_eq_three.mp hlen with ⟨a, b, c, rfl⟩
  rfl

/-- Structure of `get_weather_data`: inner join of the aggregate frame with
the (already parsed) weather frame on `start_date = date`, with the weather
`date` column dropped and `prcp`, `tavg` appended. -/
lemma gwd_structure (dfa w2 : Frame) (hwfa : dfa.WF) (hwfw : w2.WF)
    (hcw : w2.cols = ["date", "prcp", "tavg"]) (hnd : "date" ∉ dfa.cols) :
    get_weather_data dfa w2 = ⟨dfa.cols ++ ["prcp", "tavg"],
      (dfa.rows.map (fun ra =>
        (w2.rows.filter (fun rw => eqv (dfa.get ra "start_date") (w2.get rw "date"))).map
          (fun rw => ra ++ [rw.getD 1 .null, rw.getD 2 .null]))).flatten⟩ := by
  have hkeep : ∀ c ∈ dfa.cols, c ∉ (["date"] : List String) := by
    intro c hc hm
    rw [List.mem_singleton] at hm
    subst hm
    exact hnd hc
  refine Frame.ext ?_ ?_
  · show ((dfa.joinOn w2 "start_date" "date").cols).filter
        (fun c => !((["date"] : List String).contains c)) = dfa.cols ++ ["prcp", "tavg"]
    have hjc : (dfa.joinOn w2 "start_date" "date").cols = dfa.cols ++ w2.cols := rfl
    rw [hjc, hcw, List.filter_append, filter_not_contains_eq_self hkeep]
    have h2 : (["date", "prcp", "tavg"] : List String).filter
        (fun c => !((["date"] : List String).contains c)) = ["prcp", "tavg"] := by decide
    rw [h2]
  · show ((dfa.joinOn w2 "start_date" "date").rows).map
        (dropRow ["date"] (dfa.joinOn w2 "start_date" "date").cols) = _
    have hjrows : (dfa.joinOn w2 "start_date" "date").rows =
        (dfa.rows.map (fun ra =>
          (w2.rows.filter (fun rw => eqv (dfa.get ra "start_date") (w2.get rw "date"))).map
            (fun rw => ra ++ rw))).flatten := rfl
    rw [hjrows, List.map_flatten, List.map_map]
    congr 1
    refine List.map_congr_left ?_
    intro ra hra
    show List.map _ ((w2.rows.filter _).map _) = _
    rw [List.map_map]
    refine List.map_congr_left ?_
    intro rw2 hrw2
    have hrw2m : rw2 ∈ w2.rows := (List.mem_filter.mp hrw2).1
    have hlenw : rw2.length = 3 := by
      rw [hwfw rw2 hrw2m, hcw]
      rfl
    rcases List.length_eq_three.mp hlenw with ⟨d, p, t, rfl⟩
    show dropRow ["date"] ((dfa.joinOn w2 "start_date" "date").cols) (ra ++ [d, p, t]) = _
    have hjc : (dfa.joinOn w2 "start_date" "date").cols = dfa.cols ++ w2.cols := rfl
    rw [hjc, hcw, dropRow_append (hwfa ra hra), dropRow_keep_all (hwfa ra hra) hkeep]
    rfl

lemma mem_dedup {α : Type} [DecidableEq α] {a : α} :
    ∀ {l : List α}, a ∈ dedup l ↔ a ∈ l := by
  intro l
  induction l with
  | nil => simp [dedup]
  | cons b t ih =>
    simp only [dedup, List.mem_cons]
    constructor
    · rintro (rfl | h)
      · left; rfl
      · right; exact ih.mp (List.mem_filter.mp h).1
    · rintro (rfl | h)
      · left; rfl
      · by_cases hab : a = b
        · left; exact hab
        · right
          refine List.mem_filter.mpr ⟨ih.mpr h, ?_⟩
          simp [hab]

lemma nodup_dedup {α : Type} [DecidableEq α] : ∀ (l : List α), (dedup l).Nodup := by
  intro l
  induction l with
  | nil => simp [dedup]
  | cons b t ih =>
    simp only [dedup]
    rw [List.nodup_cons]
    constructor
    · intro hmem
      have hcond := (List.mem_filter.mp hmem).2
      simp at hcond
    · exact ih.filter _

/-- Every `groupByAgg` output row is the group key followed by one cell per
aggregate, so the frame is well-formed. -/
lemma groupByAgg_WF (f : Frame) (keys : List String) (aggs : List (String × AggExpr)) :
    (f.groupByAgg keys aggs).WF := by
  intro row hrow
  rcases List.mem_map.mp hrow with ⟨k, hk, rfl⟩
  rcases List.mem_map.mp (mem_dedup.mp hk) with ⟨r, _, rfl⟩
  simp [Frame.groupByAgg]

/-- Group keys are pairwise distinct across `groupByAgg` output rows. -/
lemma groupByAgg_key_pairwise (f : Frame) (keys : List String)
    (aggs : List (String × AggExpr)) :
    List.Pairwise (fun r1 r2 => r1.take keys.length ≠ r2.take keys.length)
      (f.groupByAgg keys aggs).rows := by
  have hn := nodup_dedup (f.rows.map (fun r => keys.map (f.get r)))
  show List.Pairwise _ ((dedup _).map _)
  rw [List.pairwise_map]
  refine hn.imp_of_mem ?_
  intro a b ha hb hne
  rcases List.mem_map.mp (mem_dedup.mp ha) with ⟨r1, _, rfl⟩
  rcases List.mem_map.mp (mem_dedup.mp hb) with ⟨r2, _, rfl⟩
  rw [List.take_left' (by simp), List.take_left' (by simp)]
  exact hne

lemma take_append_of_le {n : Nat} (l₁ l₂ : List Value) (h : n ≤ l₁.length) :
    (l₁ ++ l₂).take n = l₁.take n := by
  rw [List.take_append_eq_append_take]
  have hz : n - l₁.length = 0 := by omega
  rw [hz]
  simp

/-- Flattening a per-row expansion that keeps each row's key and produces at
most one output per row preserves key distinctness. -/
lemma pairwise_take_ne_flatten {n : Nat} {l : List (List Value)}
    (g : List Value → List (List Value))
    (hl : List.Pairwise (fun a b => a.take n ≠ b.take n) l)
    (hkey : ∀ a ∈ l, ∀ x ∈ g a, x.take n = a.take n)
    (hlen : ∀ a ∈ l, (g a).length ≤ 1) :
    List.Pairwise (fun a b => a.take n ≠ b.take n) ((l.map g).flatten) := by
  induction l with
  | nil => simp
  | cons a t ih =>
    simp only [List.map_cons, List.flatten_cons]
    rw [List.pairwise_append]
    obtain ⟨hrel, hpt⟩ := List.pairwise_cons.mp hl
    refine ⟨?_, ?_, ?_⟩
    · cases hga : g a with
      | nil => simp
      | cons x xs =>
        cases xs with
        | nil => simp
        | cons y ys =>
          exfalso
          have := hlen a (List.mem_cons_self a t)
          rw [hga] at this
          simp at this
    · exact ih hpt (fun b hb => hkey b (List.mem_cons_of_mem a hb))
        (fun b hb => hlen b (List.mem_cons_of_mem a hb))
    · intro x hx y hy
      rw [hkey a (List.mem_cons_self a t) x hx]
      rcases List.mem_flatten.mp hy with ⟨m, hm, hym⟩
      rcases List.mem_map.mp hm with ⟨b, hb, rfl⟩
      rw [hkey b (List.mem_cons_of_mem a hb) y hym]
      exact hrel b hb

/-- With pairwise-distinct (parsed) weather dates, each aggregate row matches
at most one weather row in the join. -/
lemma filter_eqv_len_le_one {f : List Value → Value} (v : Value) :
    ∀ (rows : List (List Value)), (rows.map f).Nodup →
      (rows.filter (fun rw => eqv v (f rw))).length ≤ 1 := by
  by_cases hv : v = .null
  · intro rows _
    subst hv
    have hnil : rows.filter (fun rw => eqv .null (f rw)) = [] := by
      rw [List.filter_eq_nil_iff]
      intro x _
      simp [eqv, Value.isNull]
    rw [hnil]
    simp
  · intro rows
    induction rows with
    | nil => intro _; simp
    | cons w t ih =>
      intro hnd
      rw [List.map_cons, List.nodup_cons] at hnd
      obtain ⟨hw, hndt⟩ := hnd
      rw [List.filter_cons]
      cases hc : eqv v (f w) with
      | false =>
        simp only [Bool.false_eq_true, if_false]
        exact ih hndt
      | true =>
        have hfw : f w = v := (eqv_iff hv).mp hc
        have hrest : t.filter (fun rw => eqv v (f rw)) = [] := by
          rw [List.filter_eq_nil_iff]
          intro x hx hpx
          have hfx : f x = v := (eqv_iff hv).mp hpx
          apply hw
          rw [hfw, ← hfx]
          exact List.mem_map_of_mem f hx
        simp [hrest]

lemma set_getD_ne (l : List Value) {i j : Nat} (v : Value) (h : i ≠ j) :
    (l.set i v).getD j .null = l.getD j .null := by
  rw [List.getD_eq_getElem?_getD, List.getD_eq_getElem?_getD, List.getElem?_set_ne h]

lemma set_getD_self (l : List Value) {i : Nat} (v : Value) (h : i < l.length) :
    (l.set i v).getD i .null = v := by
  rw [List.getD_eq_getElem?_getD, List.getElem?_set_eq_of_lt v h]
  rfl

lemma truncTrip_getD_ne (r : List Value) {j : Nat} (h3 : j ≠ 3) (h7 : j ≠ 7) :
    (truncTrip r).getD j .null = r.getD j .null := by
  unfold truncTrip
  rw [set_getD_ne _ _ (fun h => h7 h.symm), set_getD_ne _ _ (fun h => h3 h.symm)]

lemma truncTrip_getD_start (r : List Value) (h : 3 < r.length) :
    (truncTrip r).getD 3 .null = to_date (r.getD 3 .null) := by
  unfold truncTrip
  rw [set_getD_ne _ _ (show (7 : Nat) ≠ 3 by omega), set_getD_self _ _ (by omega)]

lemma filterMap_sum_eq (t : List Value)
    (h : ∀ v ∈ t, v = .null ∨ ∃ n, v = .int n) :
    (t.filterMap toIntOpt).sum = (t.map intZero).sum := by
  induction t with
  | nil => rfl
  | cons v t ih =>
    have hv := h v (List.mem_cons_self v t)
    have ht := fun x hx => h x (List.mem_cons_of_mem v hx)
    rcases hv with rfl | ⟨n, rfl⟩
    · rw [List.filterMap_cons, List.map_cons]
      show (t.filterMap toIntOpt).sum = (0 + (t.map intZero).sum : Int)
      rw [ih ht]
      omega
    · rw [List.filterMap_cons, List.map_cons]
      show (n :: t.filterMap toIntOpt).sum = (n + (t.map intZero).sum : Int)
      rw [List.sum_cons, ih ht]

/-- Spark's null-skipping `sum` against the spec's nulls-as-zero reading: they
agree exactly when some value is non-null; an all-null group sums to null. -/
lemma sumAgg_eq (vs : List Value)
    (h : ∀ v ∈ vs, v = .null ∨ ∃ n, v = .int n) :
    sumAgg vs = if vs.all Value.isNull then Value.null
      else Value.int ((vs.map intZero).sum) := by
  induction vs with
  | nil => rfl
  | cons v t ih =>
    have hv := h v (List.mem_cons_self v t)
    have ht := fun x hx => h x (List.mem_cons_of_mem v hx)
    rcases hv with rfl | ⟨n, rfl⟩
    · have hsa : sumAgg (Value.null :: t) = sumAgg t := by
        unfold sumAgg
        rw [List.filterMap_cons]
        rfl
      have hall : (Value.null :: t).all Value.isNull = t.all Value.isNull := by
        simp [List.all_cons, Value.isNull]
      have hmap : ((Value.null :: t).map intZero).sum = (t.map intZero).sum := by
        rw [List.map_cons, List.sum_cons]
        show (0 + (t.map intZero).sum : Int) = _
        omega
      rw [hsa, hall, hmap]
      exact ih ht
    · have hall : ((Value.int n :: t).all Value.isNull) = false := by
        simp [List.all_cons, Value.isNull]
      rw [hall]
      simp only [Bool.false_eq_true, if_false]
      unfold sumAgg
      rw [List.filterMap_cons]
      show Value.int (n :: t.filterMap toIntOpt).sum = _
      rw [List.sum_cons, filterMap_sum_eq t ht, List.map_cons, List.sum_cons]
      rfl

lemma charListLt_iff : ∀ (l₁ l₂ : List Char), charListLt l₁ l₂ = true ↔ l₁ < l₂ := by
  intro l₁
  induction l₁ with
  | nil =>
    intro l₂
    cases l₂ with
    | nil =>
      constructor
      · intro h; cases h
      · intro h; cases h
    | cons b bs =>
      constructor
      · intro _; exact List.Lex.nil
      · intro _; rfl
  | cons a as ih =>
    intro l₂
    cases l₂ with
    | nil =>
      constructor
      · intro h; cases h
      · intro h; cases h
    | cons b bs =>
      show (if a.toNat < b.toNat then true
        else if a.toNat = b.toNat then charListLt as bs else false) = true ↔ _
      constructor
      · intro h
        by_cases h1 : a.toNat < b.toNat
        · exact List.Lex.rel h1
        · rw [if_neg h1] at h
          by_cases h2 : a.toNat = b.toNat
          · rw [if_pos h2] at h
            have hab : a = b := Char.ext (UInt32.toNat.inj h2)
            subst hab
            exact List.Lex.cons ((ih bs).mp h)
          · rw [if_neg h2] at h
            cases h
      · intro h
        cases h with
        | cons h3 =>
          rw [if_neg (lt_irrefl a.toNat), if_pos rfl]
          exact (ih bs).mpr h3
        | rel hab =>
          rw [if_pos (show a.toNat < b.toNat from hab)]

/-- The hand-rolled string comparison agrees with the lexicographic order. -/
lemma strLt_iff (a b : String) : charListLt a.toList b.toList = true ↔ a < b :=
  (charListLt_iff a.toList b.toList).trans String.lt_iff_toList_lt.symm

lemma maxAgg_step_str (m a : String) :
    (if (Value.str a).isNull = true then Value.str m
     else if (Value.str m).isNull = true then Value.str a
     else if vless (Value.str m) (Value.str a) = true then Value.str a
     else Value.str m) =
      Value.str (if m < a then a else m) := by
  show (if charListLt m.toList a.toList = true then Value.str a else Value.str m) = _
  by_cases h : m < a
  · rw [if_pos ((strLt_iff m a).mpr h), if_pos h]
  · rw [if_neg (fun hc => h ((strLt_iff m a).mp hc)), if_neg h]

lemma maxAgg_str_aux : ∀ (ss : List String) (m : String),
    ∃ m2, List.foldl (fun acc v => if v.isNull then acc else if acc.isNull then v
        else if vless acc v then v else acc) (Value.str m) (ss.map .str) =
        Value.str m2 ∧
      (m2 = m ∨ m2 ∈ ss) ∧ m ≤ m2 ∧ ∀ x ∈ ss, x ≤ m2 := by
  intro ss
  induction ss with
  | nil =>
    intro m
    exact ⟨m, rfl, Or.inl rfl, le_refl m, by simp⟩
  | cons a t ih =>
    intro m
    rw [List.map_cons, List.foldl_cons, maxAgg_step_str]
    by_cases hma : m < a
    · rw [if_pos hma]
      rcases ih a with ⟨m2, heq, hmem, hle, hub⟩
      refine ⟨m2, heq, ?_, le_trans (le_of_lt hma) hle, ?_⟩
      · rcases hmem with rfl | hmem
        · exact Or.inr (List.mem_cons_self m2 t)
        · exact Or.inr (List.mem_cons_of_mem a hmem)
      · intro x hx
        rcases List.mem_cons.mp hx with rfl | hxt
        · exact hle
        · exact hub x hxt
    · rw [if_neg hma]
      rcases ih m with ⟨m2, heq, hmem, hle, hub⟩
      refine ⟨m2, heq, ?_, hle, ?_⟩
      · rcases hmem with rfl | hmem
        · exact Or.inl rfl
        · exact Or.inr (List.mem_cons_of_mem a hmem)
      · intro x hx
        rcases List.mem_cons.mp hx with rfl | hxt
        · exact le_trans (le_of_not_lt hma) hle
        · exact hub x hxt

/-- Spark's `max` over a non-empty list of strings is the lexical maximum. -/
lemma maxAgg_str (ss : List String) (hne : ss ≠ []) :
    ∃ m, maxAgg (ss.map .str) = Value.str m ∧ m ∈ ss ∧ ∀ x ∈ ss, x ≤ m := by
  cases ss with
  | nil => exact absurd rfl hne
  | cons a t =>
    unfold maxAgg
    rw [List.map_cons, List.foldl_cons]
    have hstep : (if (Value.str a).isNull = true then Value.null
        else if Value.null.isNull = true then Value.str a
        else if vless Value.null (Value.str a) = true then Value.str a
        else Value.null) = Value.str a := rfl
    rw [hstep]
    rcases maxAgg_str_aux t a with ⟨m2, heq, hmem, hle, hub⟩
    refine ⟨m2, heq, ?_, ?_⟩
    · rcases hmem with rfl | hmem
      · exact List.mem_cons_self m2 t
      · exact List.mem_cons_of_mem a hmem
    · intro x hx
      rcases List.mem_cons.mp hx with rfl | hxt
      · exact hle
      · exact hub x hxt

lemma length_filter_beq_nodup {α : Type} [BEq α] [LawfulBEq α] {l : List α}
    (h : l.Nodup) (k : α) :
    (l.filter (fun x => x == k)).length = if k ∈ l then 1 else 0 := by
  induction l with
  | nil => simp
  | cons a t ih =>
    rw [List.nodup_cons] at h
    obtain ⟨ha, ht⟩ := h
    rw [List.filter_cons]
    by_cases hak : a = k
    · subst hak
      have hnil : t.filter (fun x => x == a) = [] := by
        rw [List.filter_eq_nil_iff]
        intro x hx hbe
        exact ha (eq_of_beq hbe ▸ hx)
      simp [hnil]
    · have hbe : (a == k) = false := beq_eq_false_iff_ne.mpr hak
      rw [if_neg (by simp [hbe]), ih ht]
      have hmemiff : (k ∈ a :: t) ↔ (k ∈ t) := by
        rw [List.mem_cons]
        constructor
        · rintro (rfl | hk)
          · exact absurd rfl hak
          · exact hk
        · exact Or.inr
      by_cases hk : k ∈ t
      · rw [if_pos hk, if_pos (hmemiff.mpr hk)]
      · rw [if_neg hk, if_neg (fun hc => hk (hmemiff.mp hc))]

/-- Structure of `get_daily_agg` on a canonical frame: one row per distinct
(truncated start date, start station) key, carrying the lexical max of name
and location, the null-skipping sum of durations, and the non-null count of
rental ids, all read off the untruncated input rows. -/
lemma daily_structure (rows : List (List Value)) (hwf11 : ∀ r ∈ rows, r.length = 11) :
    get_daily_agg ⟨canonCols, rows⟩ =
      ⟨["start_date", "start_station_id", "start_station_name", "start_location",
        "total_duration", "hire_count"],
       (dedup (rows.map (fun r => [to_date (r.getD 3 .null), r.getD 4 .null]))).map
         (fun k =>
           k ++
             [maxAgg ((rows.filter (fun r =>
                 [to_date (r.getD 3 .null), r.getD 4 .null] == k)).map
                 (fun r => r.getD 5 .null)),
              maxAgg ((rows.filter (fun r =>
                 [to_date (r.getD 3 .null), r.getD 4 .null] == k)).map
                 (fun r => r.getD 6 .null)),
              sumAgg ((rows.filter (fun r =>
                 [to_date (r.getD 3 .null), r.getD 4 .null] == k)).map
                 (fun r => r.getD 1 .null)),
              countAgg ((rows.filter (fun r =>
                 [to_date (r.getD 3 .null), r.getD 4 .null] == k)).map
                 (fun r => r.getD 0 .null))])⟩ := by
  have hdf2 : ((Frame.mk canonCols rows).withColumn "start_date"
      (fun env => to_date (env "start_date"))).withColumn "end_date"
      (fun env => to_date (env "end_date")) = ⟨canonCols, rows.map truncTrip⟩ := by
    have h1 : ((Frame.mk canonCols rows).withColumn "start_date"
        (fun env => to_date (env "start_date"))).withColumn "end_date"
        (fun env => to_date (env "end_date")) =
        ⟨canonCols, (rows.map (fun r => r.set 3 (to_date (r.getD 3 .null)))).map
          (fun r => r.set 7 (to_date (r.getD 7 .null)))⟩ := rfl
    rw [h1]
    refine Frame.ext rfl ?_
    rw [List.map_map]
    refine List.map_congr_left ?_
    intro r _
    show (r.set 3 (to_date (r.getD 3 .null))).set 7
        (to_date ((r.set 3 (to_date (r.getD 3 .null))).getD 7 .null)) = truncTrip r
    rw [set_getD_ne _ _ (show (3 : Nat) ≠ 7 by omega)]
    rfl
  have hgda : get_daily_agg ⟨canonCols, rows⟩ =
      Frame.groupByAgg ⟨canonCols, rows.map truncTrip⟩ ["start_date", "start_station_id"]
        [("start_station_name", AggExpr.max "start_station_name"),
         ("start_location", AggExpr.max "start_location"),
         ("total_duration", AggExpr.sum "duration"),
         ("hire_count", AggExpr.count "rental_id")] :=
    congrArg (fun f => Frame.groupByAgg f ["start_date", "start_station_id"]
      [("start_station_name", AggExpr.max "start_station_name"),
       ("start_location", AggExpr.max "start_location"),
       ("total_duration", AggExpr.sum "duration"),
       ("hire_count", AggExpr.count "rental_id")]) hdf2
  rw [hgda]
  have hkeys : (rows.map truncTrip).map (fun r2 =>
      ["start_date", "start_station_id"].map
        (Frame.get ⟨canonCols, rows.map truncTrip⟩ r2)) =
      rows.map (fun r => [to_date (r.getD 3 .null), r.getD 4 .null]) := by
    rw [List.map_map]
    refine List.map_congr_left ?_
    intro r hr
    show [(truncTrip r).getD 3 .null, (truncTrip r).getD 4 .null] = _
    rw [truncTrip_getD_start r (by rw [hwf11 r hr]; omega),
      truncTrip_getD_ne r (by omega) (by omega)]
  have hgrp : ∀ k : List Value, ((rows.map truncTrip).filter (fun r2 =>
      ["start_date", "start_station_id"].map
        (Frame.get ⟨canonCols, rows.map truncTrip⟩ r2) == k)) =
      (rows.filter (fun r => [to_date (r.getD 3 .null), r.getD 4 .null] == k)).map
        truncTrip := by
    intro k
    rw [List.filter_map]
    congr 1
    refine List.filter_congr ?_
    intro r hr
    have hkr : ["start_date", "start_station_id"].map
        (Frame.get ⟨canonCols, rows.map truncTrip⟩ (truncTrip r)) =
        [to_date (r.getD 3 .null), r.getD 4 .null] := by
      show [(truncTrip r).getD 3 .null, (truncTrip r).getD 4 .null] = _
      rw [truncTrip_getD_start r (by rw [hwf11 r hr]; omega),
        truncTrip_getD_ne r (by omega) (by omega)]
    show (["start_date", "start_station_id"].map
        (Frame.get ⟨canonCols, rows.map truncTrip⟩ (truncTrip r)) == k) = _
    rw [hkr]
  have hcol : ∀ (idx : Nat) (g : List (List Value)), idx ≠ 3 → idx ≠ 7 →
      (g.map truncTrip).map (fun r2 => r2.getD idx .null) =
        g.map (fun r => r.getD idx .null) := by
    intro idx g h3 h7
    rw [List.map_map]
    refine List.map_congr_left ?_
    intro r _
    exact truncTrip_getD_ne r h3 h7
  refine Frame.ext rfl ?_
  show (dedup ((rows.map truncTrip).map (fun r2 =>
      ["start_date", "start_station_id"].map
        (Frame.get ⟨canonCols, rows.map truncTrip⟩ r2)))).map _ = _
  rw [hkeys]
  refine List.map_congr_left ?_
  intro k _
  show k ++
      [maxAgg (((rows.map truncTrip).filter (fun r2 =>
          ["start_date", "start_station_id"].map
            (Frame.get ⟨canonCols, rows.map truncTrip⟩ r2) == k)).map
          (fun r2 => r2.getD 5 .null)),
       maxAgg (((rows.map truncTrip).filter (fun r2 =>
          ["start_date", "start_station_id"].map
            (Frame.get ⟨canonCols, rows.map truncTrip⟩ r2) == k)).map
          (fun r2 => r2.getD 6 .null)),
       sumAgg (((rows.map truncTrip).filter (fun r2 =>
          ["start_date", "start_station_id"].map
            (Frame.get ⟨canonCols, rows.map truncTrip⟩ r2) == k)).map
          (fun r2 => r2.getD 1 .null)),
       countAgg (((rows.map truncTrip).filter (fun r2 =>
          ["start_date", "start_station_id"].map
            (Frame.get ⟨canonCols, rows.map truncTrip⟩ r2) == k)).map
          (fun r2 => r2.getD 0 .null))] = _
  rw [hgrp k, hcol 5 _ (by omega) (by omega), hcol 6 _ (by omega) (by omega),
    hcol 1 _ (by omega) (by omega), hcol 0 _ (by omega) (by omega)]

/-! ### Claim theorems -/

lemma concatVals_str3 (a b c : String) :
    concatVals [.str a, .str b, .str c] = .str (a ++ b ++ c) := by
  show Value.str (String.join [a, b, c]) = Value.str (a ++ b ++ c)
  rfl

/-- C1: for every trip row whose role-specific station identifier
(`StartStation Id` for role `"start"`, `EndStation Id` for role `"end"`) has
no equal identifier in the station reference frame, the row is absent from the
output of `get_station_location`; for every row with a match, the row is
present: the join is an inner join on identifier equality. -/
theorem C1_geoenricher_inner_join (df dfs : Frame) (role : String)
    (hrole : role = "start" ∨ role = "end")
    (hwf : df.WF) (hwfs : dfs.WF)
    (hsc : dfs.cols = ["id", "latitude", "longitude"])
    (hid : "id" ∉ df.cols) (hlat : "latitude" ∉ df.cols) (hlon : "longitude" ∉ df.cols)
    (hloc1 : locName role ∉ df.cols)
    {out : Frame} (hout : get_station_location df dfs role = Except.ok out)
    {r : List Value} (hr : r ∈ df.rows) (hnn : df.get r (keyName role) ≠ Value.null) :
    (∃ s ∈ dfs.rows, dfs.get s "id" = df.get r (keyName role)) ↔
      ∃ row ∈ out.rows, row.take df.cols.length = r := by
  have hs := gsl_structure df dfs role hrole hwf hwfs hsc hid hlat hlon hloc1
  rw [hout] at hs
  have hoeq := Except.ok.inj hs
  subst hoeq
  constructor
  · rintro ⟨s, hsmem, hseq⟩
    refine ⟨r ++ [concatVals [s.getD 1 .null, Value.str ", ", s.getD 2 .null]], ?_, ?_⟩
    · exact List.mem_flatten_of_mem (List.mem_map_of_mem _ hr)
        (List.mem_map_of_mem _ (List.mem_filter.mpr ⟨hsmem, (eqv_iff hnn).mpr hseq⟩))
    · exact List.take_left' (hwf r hr)
  · rintro ⟨row, hrow, htake⟩
    rw [List.mem_flatten] at hrow
    obtain ⟨l, hl, hrl⟩ := hrow
    obtain ⟨rf, hrf, rfl⟩ := List.mem_map.mp hl
    obtain ⟨rg, hrgf, rfl⟩ := List.mem_map.mp hrl
    obtain ⟨hrgmem, hcond⟩ := List.mem_filter.mp hrgf
    rw [List.take_left' (hwf rf hrf)] at htake
    subst htake
    exact ⟨rg, hrgmem, (eqv_iff hnn).mp hcond⟩

theorem C1_geoenricher_inner_join_witness :
    (∃ s ∈ ([[Value.str "7", Value.str "51.5", Value.str "-0.1"]] : List (List Value)),
        Frame.get ⟨["id", "latitude", "longitude"],
          [[Value.str "7", Value.str "51.5", Value.str "-0.1"]]⟩ s "id" =
          Frame.get ⟨["StartStation Id"], [[Value.str "7"]]⟩ [Value.str "7"]
            "StartStation Id") ↔
      ∃ row ∈ (Frame.mk ["StartStation Id", "start_location"]
          [[Value.str "7", Value.str "51.5, -0.1"]]).rows,
        row.take 1 = [Value.str "7"] :=
  C1_geoenricher_inner_join ⟨["StartStation Id"], [[Value.str "7"]]⟩
    ⟨["id", "latitude", "longitude"], [[Value.str "7", Value.str "51.5", Value.str "-0.1"]]⟩
    "start" (Or.inl rfl) (by decide) (by decide) rfl (by decide) (by decide) (by decide)
    (by decide) rfl (by decide) (by decide)

/-- C2: for every trip row whose station identifier matches a station
reference row with latitude `lat` and longitude `lon`, `get_station_location`
adds exactly one composite column (`start_location` or `end_location`,
according to the role) whose value is the string concatenation of `lat`, the
literal `", "`, and `lon`, with no rounding or reformatting of either
coordinate. -/
theorem C2_geoenricher_location_string (df dfs : Frame) (role : String)
    (hrole : role = "start" ∨ role = "end")
    (hwf : df.WF) (hwfs : dfs.WF)
    (hsc : dfs.cols = ["id", "latitude", "longitude"])
    (hid : "id" ∉ df.cols) (hlat : "latitude" ∉ df.cols) (hlon : "longitude" ∉ df.cols)
    (hloc1 : locName role ∉ df.cols)
    {out : Frame} (hout : get_station_location df dfs role = Except.ok out)
    {r : List Value} (hr : r ∈ df.rows) (sid : Value) (lat lon : String)
    (hsmem : [sid, Value.str lat, Value.str lon] ∈ dfs.rows)
    (hmatch : df.get r (keyName role) = sid) (hnn : df.get r (keyName role) ≠ Value.null) :
    out.cols = df.cols ++ [locName role] ∧
      (r ++ [Value.str (lat ++ ", " ++ lon)]) ∈ out.rows := by
  have hs := gsl_structure df dfs role hrole hwf hwfs hsc hid hlat hlon hloc1
  rw [hout] at hs
  have hoeq := Except.ok.inj hs
  subst hoeq
  refine ⟨rfl, ?_⟩
  have hcond : eqv (df.get r (keyName role))
      (dfs.get [sid, Value.str lat, Value.str lon] "id") = true := by
    have hfi0 : dfs.cols.findIdx? (fun n => n == "id") = some 0 := by
      rw [hsc]
      rfl
    have hgid : dfs.get [sid, Value.str lat, Value.str lon] "id" = sid :=
      get_of_findIdx hfi0 _
    rw [hgid]
    exact (eqv_iff hnn).mpr hmatch.symm
  refine List.mem_flatten.mpr
    ⟨(dfs.rows.filter (fun rg => eqv (df.get r (keyName role)) (dfs.get rg "id"))).map
        (fun rg => r ++ [concatVals [rg.getD 1 .null, Value.str ", ", rg.getD 2 .null]]),
      List.mem_map_of_mem _ hr, ?_⟩
  have hval : r ++ [Value.str (lat ++ ", " ++ lon)] =
      (fun rg : List Value =>
        r ++ [concatVals [rg.getD 1 .null, Value.str ", ", rg.getD 2 .null]])
        [sid, Value.str lat, Value.str lon] := by
    show r ++ [Value.str (lat ++ ", " ++ lon)] =
      r ++ [concatVals [Value.str lat, Value.str ", ", Value.str lon]]
    rw [concatVals_str3]
  rw [hval]
  exact List.mem_map_of_mem _ (List.mem_filter.mpr ⟨hsmem, hcond⟩)

theorem C2_geoenricher_location_string_witness :
    (Frame.mk ["EndStation Id", "end_location"]
        [[Value.str "7", Value.str "51.5, -0.1"]]).cols =
        ["EndStation Id"] ++ ["end_location"] ∧
      ([Value.str "7"] ++ [Value.str ("51.5" ++ ", " ++ "-0.1")]) ∈
        (Frame.mk ["EndStation Id", "end_location"]
          [[Value.str "7", Value.str "51.5, -0.1"]]).rows :=
  C2_geoenricher_location_string ⟨["EndStation Id"], [[Value.str "7"]]⟩
    ⟨["id", "latitude", "longitude"], [[Value.str "7", Value.str "51.5", Value.str "-0.1"]]⟩
    "end" (Or.inr rfl) (by decide) (by decide) rfl (by decide) (by decide) (by decide)
    (by decide) rfl (by decide) (Value.str "7") "51.5" "-0.1" (by decide)
    (by decide) (by decide)

/-- C9: after `get_station_location` runs, the columns `id`, `latitude` and
`longitude` are absent from the output frame; the schema is the input trip
schema extended by exactly the single role-specific location column; and every
output row restricted to the trip columns is one of the input trip rows
(values unchanged). -/
theorem C9_geoenricher_drops_columns (df dfs : Frame) (role : String)
    (hrole : role = "start" ∨ role = "end")
    (hwf : df.WF) (hwfs : dfs.WF)
    (hsc : dfs.cols = ["id", "latitude", "longitude"])
    (hid : "id" ∉ df.cols) (hlat : "latitude" ∉ df.cols) (hlon : "longitude" ∉ df.cols)
    (hloc1 : locName role ∉ df.cols)
    {out : Frame} (hout : get_station_location df dfs role = Except.ok out) :
    ("id" ∉ out.cols ∧ "latitude" ∉ out.cols ∧ "longitude" ∉ out.cols) ∧
      out.cols = df.cols ++ [locName role] ∧
      ∀ row ∈ out.rows, row.take df.cols.length ∈ df.rows := by
  have hs := gsl_structure df dfs role hrole hwf hwfs hsc hid hlat hlon hloc1
  rw [hout] at hs
  have hoeq := Except.ok.inj hs
  subst hoeq
  have hlocne : ∀ c : String, c ∈ (["id", "latitude", "longitude"] : List String) →
      c ≠ locName role := by
    rcases hrole with rfl | rfl <;> decide
  refine ⟨⟨?_, ?_, ?_⟩, rfl, ?_⟩
  · rw [List.mem_append]
    rintro (h | h)
    · exact hid h
    · exact hlocne "id" (by decide) (List.mem_singleton.mp h)
  · rw [List.mem_append]
    rintro (h | h)
    · exact hlat h
    · exact hlocne "latitude" (by decide) (List.mem_singleton.mp h)
  · rw [List.mem_append]
    rintro (h | h)
    · exact hlon h
    · exact hlocne "longitude" (by decide) (List.mem_singleton.mp h)
  · intro row hrow
    rw [List.mem_flatten] at hrow
    obtain ⟨l, hl, hrl⟩ := hrow
    obtain ⟨rf, hrf, rfl⟩ := List.mem_map.mp hl
    obtain ⟨rg, hrgf, rfl⟩ := List.mem_map.mp hrl
    rw [List.take_left' (hwf rf hrf)]
    exact hrf

theorem C9_geoenricher_drops_columns_witness :
    ("id" ∉ (Frame.mk ["StartStation Id", "start_location"]
        [[Value.str "7", Value.str "51.5, -0.1"]]).cols ∧
      "latitude" ∉ (Frame.mk ["StartStation Id", "start_location"]
        [[Value.str "7", Value.str "51.5, -0.1"]]).cols ∧
      "longitude" ∉ (Frame.mk ["StartStation Id", "start_location"]
        [[Value.str "7", Value.str "51.5, -0.1"]]).cols) ∧
      (Frame.mk ["StartStation Id", "start_location"]
        [[Value.str "7", Value.str "51.5, -0.1"]]).cols =
        ["StartStation Id"] ++ ["start_location"] ∧
      ∀ row ∈ (Frame.mk ["StartStation Id", "start_location"]
          [[Value.str "7", Value.str "51.5, -0.1"]]).rows,
        row.take 1 ∈ ([[Value.str "7"]] : List (List Value)) :=
  C9_geoenricher_drops_columns ⟨["StartStation Id"], [[Value.str "7"]]⟩
    ⟨["id", "latitude", "longitude"], [[Value.str "7", Value.str "51.5", Value.str "-0.1"]]⟩
    "start" (Or.inl rfl) (by decide) (by decide) rfl (by decide) (by decide) (by decide)
    (by decide) rfl

/-- C3 (counterexample to the claim as stated): a canonical trip frame with a
single row whose `duration` is null.  The claim's "sum of the group's duration
values with null durations contributing zero" predicts `total_duration = 0`;
the code's null-skipping sum yields a null `total_duration` instead. -/
theorem C3_counterexample_all_null_duration :
    (get_daily_agg ⟨canonCols,
      [[Value.str "r1", Value.null, Value.str "b1",
        Value.timestamp ⟨2021, 6, 1, 10, 0⟩, Value.str "1", Value.str "A",
        Value.str "L", Value.timestamp ⟨2021, 6, 1, 10, 30⟩, Value.str "2",
        Value.str "B", Value.str "M"]]⟩).rows =
      [[Value.date ⟨2021, 6, 1⟩, Value.str "1", Value.str "A", Value.str "L",
        Value.null, Value.int 1]] ∧
      Value.null ≠ Value.int 0 := by
  constructor
  · rfl
  · decide

/-- C3 (amended): for every input in canonical trip schema whose durations are
null-or-integer, `get_daily_agg` groups rows by (start_date truncated to
calendar date, start_station_id): exactly one output row per non-empty group;
per group, `total_duration` is the sum of the durations with nulls
contributing zero whenever some duration is non-null and null when all are
null, `hire_count` is the count of non-null `rental_id` values, and
`start_station_name`/`start_location` are the lexical maximum over the group;
in particular two trips on the same start date and station with durations 300
and 700 yield one row with `total_duration = 1000` and `hire_count = 2`. -/
theorem C3_daily_aggregation (df : Frame) (hwf : df.WF) (hcols : df.cols = canonCols)
    (hdur : ∀ r ∈ df.rows,
      df.get r "duration" = .null ∨ ∃ n, df.get r "duration" = .int n) :
    (get_daily_agg df).cols =
      ["start_date", "start_station_id", "start_station_name", "start_location",
       "total_duration", "hire_count"] ∧
      (∀ k : List Value,
        ((get_daily_agg df).rows.filter (fun row => row.take 2 == k)).length =
          if tripGroup df k = [] then 0 else 1) ∧
      (∀ row ∈ (get_daily_agg df).rows, ∃ k,
        row.take 2 = k ∧ tripGroup df k ≠ [] ∧
        row.getD 4 .null =
          (if ((tripGroup df k).map (fun r => df.get r "duration")).all Value.isNull
           then Value.null
           else Value.int (((tripGroup df k).map
             (fun r => intZero (df.get r "duration"))).sum)) ∧
        row.getD 5 .null = Value.int ((((tripGroup df k).map
          (fun r => df.get r "rental_id")).filter (fun v => !v.isNull)).length : Nat) ∧
        (∀ names : List String,
          (tripGroup df k).map (fun r => df.get r "start_station_name") =
            names.map Value.str →
          ∃ m, row.getD 2 .null = Value.str m ∧ m ∈ names ∧ ∀ x ∈ names, x ≤ m) ∧
        (∀ locs : List String,
          (tripGroup df k).map (fun r => df.get r "start_location") =
            locs.map Value.str →
          ∃ m, row.getD 3 .null = Value.str m ∧ m ∈ locs ∧ ∀ x ∈ locs, x ≤ m)) ∧
      (get_daily_agg ⟨canonCols,
        [[Value.str "r1", Value.int 300, Value.str "b1",
          Value.timestamp ⟨2021, 6, 1, 10, 0⟩, Value.str "1", Value.str "A",
          Value.str "51.5, -0.1", Value.timestamp ⟨2021, 6, 1, 10, 30⟩,
          Value.str "2", Value.str "B", Value.str "51.6, -0.2"],
         [Value.str "r2", Value.int 700, Value.str "b2",
          Value.timestamp ⟨2021, 6, 1, 11, 0⟩, Value.str "1", Value.str "A",
          Value.str "51.5, -0.1", Value.timestamp ⟨2021, 6, 1, 11, 30⟩,
          Value.str "2", Value.str "B", Value.str "51.6, -0.2"]]⟩).rows =
        [[Value.date ⟨2021, 6, 1⟩, Value.str "1", Value.str "A",
          Value.str "51.5, -0.1", Value.int 1000, Value.int 2]] := by
  obtain ⟨cols, rows⟩ := df
  have hc : cols = canonCols := hcols
  subst hc
  have hwf11 : ∀ r ∈ rows, r.length = 11 := fun r hr => hwf r hr
  have hdur2 : ∀ r ∈ rows, r.getD 1 .null = .null ∨ ∃ n, r.getD 1 .null = .int n :=
    fun r hr => hdur r hr
  have htg : ∀ k : List Value, tripGroup ⟨canonCols, rows⟩ k =
      rows.filter (fun r => [to_date (r.getD 3 .null), r.getD 4 .null] == k) :=
    fun k => rfl
  rw [daily_structure rows hwf11]
  refine ⟨rfl, ?_, ?_, ?_⟩
  case mk.refine_3 => rfl
  · intro k
    rw [htg k]
    show ((List.map _ (dedup (rows.map (fun r =>
      [to_date (r.getD 3 .null), r.getD 4 .null])))).filter
        (fun row : List Value => row.take 2 == k)).length = _
    rw [List.filter_map, List.length_map]
    have hpF : ∀ k' ∈ dedup (rows.map (fun r =>
        [to_date (r.getD 3 .null), r.getD 4 .null])), (((k' ++
          [maxAgg ((rows.filter (fun r =>
              [to_date (r.getD 3 .null), r.getD 4 .null] == k')).map
              (fun r => r.getD 5 .null)),
           maxAgg ((rows.filter (fun r =>
              [to_date (r.getD 3 .null), r.getD 4 .null] == k')).map
              (fun r => r.getD 6 .null)),
           sumAgg ((rows.filter (fun r =>
              [to_date (r.getD 3 .null), r.getD 4 .null] == k')).map
              (fun r => r.getD 1 .null)),
           countAgg ((rows.filter (fun r =>
              [to_date (r.getD 3 .null), r.getD 4 .null] == k')).map
              (fun r => r.getD 0 .null))]).take 2 == k)) = (k' == k) := by
      intro k' hk'
      rcases List.mem_map.mp (mem_dedup.mp hk') with ⟨r, _, rfl⟩
      rw [List.take_left' (show ([to_date (r.getD 3 Value.null),
        r.getD 4 Value.null] : List Value).length = 2 from rfl)]
    simp only [Function.comp_def]
    rw [List.filter_congr hpF,
      length_filter_beq_nodup (nodup_dedup _) k]
    by_cases hmem : k ∈ dedup (rows.map (fun r =>
        [to_date (r.getD 3 .null), r.getD 4 .null]))
    · rw [if_pos hmem]
      rcases List.mem_map.mp (mem_dedup.mp hmem) with ⟨r, hr, rfl⟩
      have hne : rows.filter (fun r' =>
          [to_date (r'.getD 3 .null), r'.getD 4 .null] ==
            [to_date (r.getD 3 .null), r.getD 4 .null]) ≠ [] :=
        List.ne_nil_of_mem (List.mem_filter.mpr ⟨hr, by simp⟩)
      rw [if_neg hne]
    · rw [if_neg hmem]
      have hnil : rows.filter (fun r =>
          [to_date (r.getD 3 .null), r.getD 4 .null] == k) = [] := by
        rw [List.filter_eq_nil_iff]
        intro r hr hbe
        exact hmem (mem_dedup.mpr (eq_of_beq hbe ▸
          List.mem_map_of_mem (fun r => [to_date (r.getD 3 .null), r.getD 4 .null]) hr))
      rw [if_pos hnil]
  · intro row hrow
    rcases List.mem_map.mp hrow with ⟨k, hk, rfl⟩
    rcases List.mem_map.mp (mem_dedup.mp hk) with ⟨r0, hr0, hkeq⟩
    subst hkeq
    refine ⟨[to_date (r0.getD 3 .null), r0.getD 4 .null], List.take_left' rfl,
      ?_, ?_, ?_, ?_, ?_⟩
    · rw [htg]
      exact List.ne_nil_of_mem (List.mem_filter.mpr ⟨hr0, by simp⟩)
    · rw [htg]
      show sumAgg ((rows.filter (fun r =>
          [to_date (r.getD 3 .null), r.getD 4 .null] ==
            [to_date (r0.getD 3 .null), r0.getD 4 .null])).map
          (fun r => r.getD 1 .null)) = _
      have hgd := sumAgg_eq ((rows.filter (fun r =>
          [to_date (r.getD 3 .null), r.getD 4 .null] ==
            [to_date (r0.getD 3 .null), r0.getD 4 .null])).map
          (fun r => r.getD 1 .null))
        (by
          intro v hv
          rcases List.mem_map.mp hv with ⟨r, hrmem, rfl⟩
          exact hdur2 r (List.mem_filter.mp hrmem).1)
      rw [List.map_map] at hgd
      exact hgd
    · rfl
    · intro names hmap
      rw [htg] at hmap
      have hmap2 : (rows.filter (fun r =>
          [to_date (r.getD 3 .null), r.getD 4 .null] ==
            [to_date (r0.getD 3 .null), r0.getD 4 .null])).map
          (fun r => r.getD 5 .null) = names.map Value.str := hmap
      have hnames : names ≠ [] := by
        intro hnil
        subst hnil
        rw [List.map_nil, List.map_eq_nil_iff] at hmap2
        exact List.ne_nil_of_mem (List.mem_filter.mpr ⟨hr0, by simp⟩) hmap2
      rcases maxAgg_str names hnames with ⟨m, hm, hmem, hub⟩
      refine ⟨m, ?_, hmem, hub⟩
      show maxAgg ((rows.filter (fun r =>
          [to_date (r.getD 3 .null), r.getD 4 .null] ==
            [to_date (r0.getD 3 .null), r0.getD 4 .null])).map
          (fun r => r.getD 5 .null)) = Value.str m
      rw [hmap2]
      exact hm
    · intro locs hmap
      rw [htg] at hmap
      have hmap2 : (rows.filter (fun r =>
          [to_date (r.getD 3 .null), r.getD 4 .null] ==
            [to_date (r0.getD 3 .null), r0.getD 4 .null])).map
          (fun r => r.getD 6 .null) = locs.map Value.str := hmap
      have hlocs : locs ≠ [] := by
        intro hnil
        subst hnil
        rw [List.map_nil, List.map_eq_nil_iff] at hmap2
        exact List.ne_nil_of_mem (List.mem_filter.mpr ⟨hr0, by simp⟩) hmap2
      rcases maxAgg_str locs hlocs with ⟨m, hm, hmem, hub⟩
      refine ⟨m, ?_, hmem, hub⟩
      show maxAgg ((rows.filter (fun r =>
          [to_date (r.getD 3 .null), r.getD 4 .null] ==
            [to_date (r0.getD 3 .null), r0.getD 4 .null])).map
          (fun r => r.getD 6 .null)) = Value.str m
      rw [hmap2]
      exact hm

theorem C3_daily_aggregation_witness :
    (get_daily_agg ⟨canonCols,
      [[Value.str "r1", Value.int 300, Value.str "b1",
        Value.timestamp ⟨2021, 6, 1, 10, 0⟩, Value.str "1", Value.str "A",
        Value.str "51.5, -0.1", Value.timestamp ⟨2021, 6, 1, 10, 30⟩, Value.str "2",
        Value.str "B", Value.str "51.6, -0.2"]]⟩).cols =
      ["start_date", "start_station_id", "start_station_name", "start_location",
       "total_duration", "hire_count"] :=
  (C3_daily_aggregation ⟨canonCols,
    [[Value.str "r1", Value.int 300, Value.str "b1",
      Value.timestamp ⟨2021, 6, 1, 10, 0⟩, Value.str "1", Value.str "A",
      Value.str "51.5, -0.1", Value.timestamp ⟨2021, 6, 1, 10, 30⟩, Value.str "2",
      Value.str "B", Value.str "51.6, -0.2"]]⟩ (by decide) rfl
    (fun r hr => by
      rw [List.mem_singleton] at hr
      subst hr
      exact Or.inr ⟨300, rfl⟩)).1

/-- C5: the weather frame's `date` column is parsed with pattern
year-month-day and truncated to a calendar date; the daily aggregate is joined
to weather by exact calendar-date equality as an inner join (aggregate rows
with no equal weather date are absent from the final output, rows with a
match are present); the weather `date` column is absent from the joined
result while `prcp` and `tavg` are attached to each surviving row. -/
theorem C5_weather_join_drops (dfa dfw : Frame) (hwfa : dfa.WF) (hwfw : dfw.WF)
    (hcw : dfw.cols = ["date", "prcp", "tavg"]) (hnd : "date" ∉ dfa.cols) :
    (get_datetime_weather dfw).rows =
        dfw.rows.map (fun w => [to_date (to_timestamp (w.getD 0 .null) "yyyy-MM-dd"),
          w.getD 1 .null, w.getD 2 .null]) ∧
      to_date (to_timestamp (.str "2021-06-01") "yyyy-MM-dd") = .date ⟨2021, 6, 1⟩ ∧
      (get_weather_data dfa (get_datetime_weather dfw)).cols =
        dfa.cols ++ ["prcp", "tavg"] ∧
      "date" ∉ (get_weather_data dfa (get_datetime_weather dfw)).cols ∧
      (∀ r ∈ dfa.rows, dfa.get r "start_date" ≠ Value.null →
        ((∃ w ∈ (get_datetime_weather dfw).rows,
            (get_datetime_weather dfw).get w "date" = dfa.get r "start_date") ↔
          ∃ row ∈ (get_weather_data dfa (get_datetime_weather dfw)).rows,
            row.take dfa.cols.length = r)) := by
  have hg := gdw_structure dfw hwfw hcw
  have hw2wf : (get_datetime_weather dfw).WF := by
    rw [hg]
    intro r hr
    rcases List.mem_map.mp hr with ⟨w, _, rfl⟩
    rfl
  have hw2c : (get_datetime_weather dfw).cols = ["date", "prcp", "tavg"] := by
    rw [hg]
  have hs := gwd_structure dfa (get_datetime_weather dfw) hwfa hw2wf hw2c hnd
  refine ⟨by rw [hg], by decide, by rw [hs], ?_, ?_⟩
  · rw [hs]
    show "date" ∉ dfa.cols ++ ["prcp", "tavg"]
    intro hmem
    rcases List.mem_append.mp hmem with h | h
    · exact hnd h
    · exact absurd h (by decide)
  · intro r hr hnn
    rw [hs]
    constructor
    · rintro ⟨w, hwmem, hweq⟩
      refine ⟨r ++ [w.getD 1 .null, w.getD 2 .null], ?_, List.take_left' (hwfa r hr)⟩
      exact List.mem_flatten_of_mem (List.mem_map_of_mem _ hr)
        (List.mem_map_of_mem _ (List.mem_filter.mpr ⟨hwmem, (eqv_iff hnn).mpr hweq⟩))
    · rintro ⟨row, hrow, htake⟩
      rw [List.mem_flatten] at hrow
      obtain ⟨l, hl, hrl⟩ := hrow
      obtain ⟨ra, hra, rfl⟩ := List.mem_map.mp hl
      obtain ⟨rw2, hrwf, rfl⟩ := List.mem_map.mp hrl
      obtain ⟨hrwm, hcond⟩ := List.mem_filter.mp hrwf
      rw [List.take_left' (hwfa ra hra)] at htake
      subst htake
      exact ⟨rw2, hrwm, (eqv_iff hnn).mp hcond⟩

theorem C5_weather_join_drops_witness :
    (get_weather_data ⟨["start_date"], [[Value.date ⟨2021, 6, 1⟩]]⟩
        (get_datetime_weather
          ⟨["date", "prcp", "tavg"],
           [[Value.str "2021-06-01", Value.int 0, Value.int 20]]⟩)).cols =
      ["start_date"] ++ ["prcp", "tavg"] :=
  (C5_weather_join_drops ⟨["start_date"], [[Value.date ⟨2021, 6, 1⟩]]⟩
    ⟨["date", "prcp", "tavg"], [[Value.str "2021-06-01", Value.int 0, Value.int 20]]⟩
    (by decide) (by decide) rfl (by decide)).2.2.1

/-- C7: every daily-aggregate frame — both the direct output of
`get_daily_agg` and the output after the weather join — contains at most one
row per (calendar date, start station identifier) pair, i.e. the first two
cells of any two distinct rows differ, given one weather row per calendar
date. -/
theorem C7_at_most_one_row_per_key (df dfw : Frame) (hwfw : dfw.WF)
    (hcw : dfw.cols = ["date", "prcp", "tavg"])
    (hnd : ((get_datetime_weather dfw).rows.map
        (fun w => (get_datetime_weather dfw).get w "date")).Nodup) :
    List.Pairwise (fun r1 r2 => r1.take 2 ≠ r2.take 2) (get_daily_agg df).rows ∧
      List.Pairwise (fun r1 r2 => r1.take 2 ≠ r2.take 2)
        (get_weather_data (get_daily_agg df) (get_datetime_weather dfw)).rows := by
  have hpart1 : List.Pairwise (fun r1 r2 => r1.take 2 ≠ r2.take 2)
      (get_daily_agg df).rows :=
    groupByAgg_key_pairwise
      ((df.withColumn "start_date" (fun env => to_date (env "start_date"))).withColumn
        "end_date" (fun env => to_date (env "end_date")))
      ["start_date", "start_station_id"]
      [("start_station_name", AggExpr.max "start_station_name"),
       ("start_location", AggExpr.max "start_location"),
       ("total_duration", AggExpr.sum "duration"),
       ("hire_count", AggExpr.count "rental_id")]
  refine ⟨hpart1, ?_⟩
  have hwfa : (get_daily_agg df).WF := groupByAgg_WF _ _ _
  have hdnc : "date" ∉ (get_daily_agg df).cols := by
    intro h
    have h2 : "date" ∈ (["start_date", "start_station_id", "start_station_name",
        "start_location", "total_duration", "hire_count"] : List String) := h
    exact absurd h2 (by decide)
  have hw2wf : (get_datetime_weather dfw).WF := by
    rw [gdw_structure dfw hwfw hcw]
    intro r hr
    rcases List.mem_map.mp hr with ⟨w, _, rfl⟩
    rfl
  have hw2c : (get_datetime_weather dfw).cols = ["date", "prcp", "tavg"] := by
    rw [gdw_structure dfw hwfw hcw]
  have hs := gwd_structure (get_daily_agg df) (get_datetime_weather dfw) hwfa hw2wf
    hw2c hdnc
  rw [hs]
  show List.Pairwise _ (((get_daily_agg df).rows.map _).flatten)
  refine pairwise_take_ne_flatten _ hpart1 ?_ ?_
  · intro a ha x hx
    rcases List.mem_map.mp hx with ⟨rw2, _, rfl⟩
    have hal : a.length = 6 := hwfa a ha
    exact take_append_of_le a _ (by omega)
  · intro a _
    rw [List.length_map]
    exact filter_eqv_len_le_one _ _ hnd

theorem C7_at_most_one_row_per_key_witness :
    List.Pairwise (fun r1 r2 => r1.take 2 ≠ r2.take 2)
      (get_daily_agg ⟨["start_date", "start_station_id"],
        [[Value.date ⟨2021, 6, 1⟩, Value.str "1"]]⟩).rows :=
  (C7_at_most_one_row_per_key
    ⟨["start_date", "start_station_id"], [[Value.date ⟨2021, 6, 1⟩, Value.str "1"]]⟩
    ⟨["date", "prcp", "tavg"], [[Value.str "2021-06-01", Value.int 0, Value.int 20]]⟩
    (by decide) rfl (by decide)).1

/-- C10: for every call of `get_station_location` whose role argument is
neither `"start"` nor `"end"`, the function fails (the join key variable is
never assigned, so evaluation raises before any join is performed); it never
returns a frame for such a role. -/
theorem C10_invalid_role_fails (df df_station : Frame) (role : String)
    (h1 : role ≠ "start") (h2 : role ≠ "end") :
    ∃ e, get_station_location df df_station role = Except.error e := by
  refine ⟨"UnboundLocalError: local variable referenced before assignment", ?_⟩
  unfold get_station_location
  rw [if_neg h1, if_neg h2]

theorem C10_invalid_role_fails_witness :
    ∃ e, get_station_location ⟨[], []⟩ ⟨[], []⟩ "middle" = Except.error e :=
  C10_invalid_role_fails ⟨[], []⟩ ⟨[], []⟩ "middle" (by decide) (by decide)

/-- C6: `format_datetime` replaces the named text column by its parse under
the fixed pattern day/month/year hour:minute (`dd/MM/yyyy HH:mm`); the text
`"25/12/2021 14:30"` parses to a timestamp with year 2021, month 12, day 25,
hour 14, minute 30; and text not matching the pattern yields a null timestamp
instead of a parse failure. -/
theorem C6_format_datetime_parses (df : Frame) (c : String)
    (hwf : df.WF) (hc : c ∈ df.cols) :
    (format_datetime df c).cols = df.cols ∧
    (∀ i, i < df.rows.length →
      (format_datetime df c).get ((format_datetime df c).rows.getD i []) c =
        to_timestamp (df.get (df.rows.getD i []) c) "dd/MM/yyyy HH:mm") ∧
    to_timestamp (.str "25/12/2021 14:30") "dd/MM/yyyy HH:mm" =
      .timestamp ⟨2021, 12, 25, 14, 30⟩ ∧
    (∀ s, parse_ddMMyyyyHHmm s = none →
      to_timestamp (.str s) "dd/MM/yyyy HH:mm" = .null) := by
  rcases findIdx?_beq_some_of_mem hc with ⟨idx, hidx, hlt⟩
  have hfd : format_datetime df c =
      ⟨df.cols, df.rows.map
        (fun r => r.set idx (to_timestamp (df.env r c) "dd/MM/yyyy HH:mm"))⟩ := by
    unfold format_datetime Frame.withColumn
    rw [hidx]
  refine ⟨by rw [hfd], ?_, by decide, ?_⟩
  · intro i hi
    rw [hfd]
    have hrowmem : df.rows.getD i [] ∈ df.rows := by
      rw [List.getD_eq_getElem?_getD, List.getElem?_eq_getElem hi]
      exact List.getElem_mem hi
    have hrlen : (df.rows.getD i []).length = df.cols.length := hwf _ hrowmem
    have hmap : (df.rows.map
        (fun r => r.set idx (to_timestamp (df.env r c) "dd/MM/yyyy HH:mm"))).getD i [] =
        (df.rows.getD i []).set idx
          (to_timestamp (df.env (df.rows.getD i []) c) "dd/MM/yyyy HH:mm") := by
      rw [List.getD_eq_getElem?_getD, List.getElem?_map, List.getElem?_eq_getElem hi,
        List.getD_eq_getElem?_getD, List.getElem?_eq_getElem hi]
      rfl
    show Frame.get ⟨df.cols, _⟩ _ c = _
    rw [hmap]
    rw [env_of_findIdx hidx, get_of_findIdx hidx]
    rw [get_of_findIdx
      (f := ⟨df.cols,
        List.map (fun r => r.set idx (to_timestamp (df.env r c) "dd/MM/yyyy HH:mm")) df.rows⟩)
      hidx]
    have hsetlen : idx < (df.rows.getD i []).length := by rw [hrlen]; exact hlt
    rw [List.getD_eq_getElem?_getD, List.getElem?_set_eq_of_lt _ hsetlen]
    rfl
  · intro s hs
    unfold to_timestamp
    simp [hs]

/-- C4: for every input frame containing all required source columns,
`df_preparation_to_bq` produces a frame whose column sequence is exactly
rental_id, duration, bike_id, start_date, start_station_id,
start_station_name, start_location, end_date, end_station_id,
end_station_name, end_location, in that order, and every input column outside
this list (after renaming by the fixed rename table) is absent from the
output, regardless of which extra columns the input had. -/
theorem C4_schema_mapper_projects (df : Frame)
    (hsrc : ∀ p ∈ renamePairs, p.1 ∈ df.cols) :
    ∃ out, df_preparation_to_bq df = Except.ok out ∧ out.cols = canonCols := by
  have hpairs : ∀ nm ∈ canonCols, ∃ p ∈ renamePairs, p.2 = nm := by decide
  have hcanon : ∀ nm ∈ canonCols, nm ∈ (renameStage df).cols := by
    intro nm hnm
    rcases hpairs nm hnm with ⟨p, hp, hp2⟩
    rw [renameStage_cols]
    have heq : renameFn p.1 = nm := by
      rw [← hp2]
      exact (renameFn_eq_target p hp p.1).mpr (Or.inl rfl)
    have hmem := List.mem_map_of_mem renameFn (hsrc p hp)
    rwa [heq] at hmem
  rcases select_ok_of_mem hcanon with ⟨out, hok, hcols⟩
  exact ⟨out, hok, hcols⟩

theorem C4_schema_mapper_projects_witness :
    ∃ out,
      df_preparation_to_bq
        ⟨["Rental Id", "Duration", "Bike Id", "End Date", "EndStation Id",
          "EndStation Name", "Start Date", "StartStation Id", "StartStation Name",
          "start_location", "end_location", "Extra Col"], []⟩ = Except.ok out ∧
      out.cols = canonCols :=
  C4_schema_mapper_projects
    ⟨["Rental Id", "Duration", "Bike Id", "End Date", "EndStation Id",
      "EndStation Name", "Start Date", "StartStation Id", "StartStation Name",
      "start_location", "end_location", "Extra Col"], []⟩ (by decide)

/-- C8: for every input frame missing one of the required source columns of
the canonical list (both the raw source name and its canonical target are
absent), `df_preparation_to_bq` fails with a schema error rather than
returning a frame with the column silently absent. -/
theorem C8_missing_column_fails (df : Frame)
    (hmiss : ∃ p ∈ renamePairs, p.1 ∉ df.cols ∧ p.2 ∉ df.cols) :
    df_preparation_to_bq df =
      Except.error "AnalysisException: cannot resolve column" := by
  rcases hmiss with ⟨p, hp, h1, h2⟩
  have hmemc : ∀ q ∈ renamePairs, q.2 ∈ canonCols := by decide
  have hnot : p.2 ∉ (renameStage df).cols := by
    rw [renameStage_cols]
    intro hmem
    rcases List.mem_map.mp hmem with ⟨c0, hc0, hfc⟩
    rcases (renameFn_eq_target p hp c0).mp hfc with rfl | rfl
    · exact h1 hc0
    · exact h2 hc0
  exact select_error_of_not_mem (hmemc p hp) hnot

theorem C8_missing_column_fails_witness :
    df_preparation_to_bq ⟨["Rental Id"], []⟩ =
      Except.error "AnalysisException: cannot resolve column" :=
  C8_missing_column_fails ⟨["Rental Id"], []⟩ (by decide)

theorem C6_format_datetime_parses_witness :
    (format_datetime ⟨["Start Date"], [[Value.str "25/12/2021 14:30"]]⟩ "Start Date").cols
      = ["Start Date"] :=
  (C6_format_datetime_parses ⟨["Start Date"], [[Value.str "25/12/2021 14:30"]]⟩
    "Start Date" (by decide) (by decide)).1

end SparkETL
